import Mathlib

/-!
# Verification of the offline data-sync engine (sync-service)

This file gives a shallow embedding of the offline-capable sync layer of the
time-tracking application: the Dexie-backed local mirror store (`offline-db`),
the sync-aware repository operations of `sync-service` (`upsertTimeLog`,
`createTask`, `updateTask`, `deleteTask`, `uploadPhoto`, `deletePhoto`,
`getSettings`, `updateSettings`, `seedOfflineDB`) and the queue drainer
(`processSyncQueue` with its per-collection handlers `syncTimeLog`,
`syncTask`, `syncPhoto`, `syncSettings`).

Modelling conventions:
* Row identifiers are the inductive `Key`: `Key.lgen n` is the n-th id drawn
  from the app-side uuid source (`uuid()` from the `uuid` package), and
  `Key.srv n` the n-th id assigned by the remote store.  Tagging the two
  sources models the collision resistance of uuid v4 against the remote
  store's key generator.
* Timestamps (`nowISO()`, `Date.now()`, remote `created_at` defaults) are
  naturals drawn from monotone counters.
* The remote relational store and the attachment storage are external
  collaborators (spec sections 2 and 6); they are modelled from the spec's
  Remote Access Gateway contract: per-collection CRUD with row-level scoping,
  upsert with an explicit conflict key that preserves the conflicting row's
  identifier (the remote store is the authority for identifiers), a unique
  constraint on `settings.user_id` (witnessed by the source's
  `onConflict: "user_id"`), cascading deletion of a time log's children, and
  an upload service that rejects duplicate paths (`upsert: false`).
  Call outcomes are driven by `okList`: each gateway call consumes one
  element (an empty list means every call succeeds), which models
  RemoteUnavailable failures.
* Each repository operation also returns a trace of `Ev` events recording, in
  program order, the local-mirror mutations and remote mutation attempts it
  performs; the traces settle the ordering claims.
-/

namespace SyncSpec

/-- Row identifiers: app-generated (uuid) vs server-assigned keys. -/
inductive Key where
  | lgen (n : Nat)
  | srv (n : Nat)
deriving DecidableEq, Repr

/-- `time_logs` row (offline-db `OfflineTimeLog` / Supabase `time_logs`). -/
structure TimeLog where
  id : Key
  date : String
  time_in : Option String
  time_out : Option String
  hours_rendered : Option Int
  user_id : String
  created_at : Nat
deriving DecidableEq, Repr

/-- `tasks` row. -/
structure Task where
  id : Key
  log_id : Key
  description : String
  created_at : Nat
deriving DecidableEq, Repr

/-- `photos` row, with the offline-only payload fields. -/
structure Photo where
  id : Key
  log_id : Key
  image_url : String
  created_at : Nat
  offline_blob : Option String
  offline_filename : Option String
deriving DecidableEq, Repr

/-- `settings` row. -/
structure Settings where
  id : Key
  user_id : String
  required_ojt_hours : Int
  accent_color : String
  theme : String
deriving DecidableEq, Repr

/-- The four synced collections (`SyncQueueItem.table`). -/
inductive Table where
  | time_logs
  | tasks
  | photos
  | settings
deriving DecidableEq, Repr

/-- Queue operations (`SyncQueueItem.action`). -/
inductive Action where
  | upsert
  | insert
  | update
  | delete
deriving DecidableEq, Repr

/-- The payloads the repository actually stores in queue entries
(`Record<string, unknown>` in the source, one shape per enqueue site). -/
inductive Payload where
  | timeLogRow (row : TimeLog)
  | taskRow (row : Task)
  | descOnly (description : String)
  | photoIns (log_id : Key) (filename : String)
  | photoDel (image_url : String)
  | settingsFields (required : Option Int) (accent : Option String) (theme : Option String)
deriving DecidableEq, Repr

/-- A mutation-queue entry (`SyncQueueItem`). -/
structure QueueItem where
  queueId : Nat
  table : Table
  action : Action
  rowId : Key
  payload : Option Payload
  createdAt : Nat
deriving DecidableEq, Repr

/-- Dexie `put`: replace the row with the same primary key, else append. -/
def putRow {α : Type} {β : Type} [DecidableEq β] (key : α → β) (xs : List α) (x : α) : List α :=
  if xs.any (fun y => decide (key y = key x)) then
    xs.map (fun y => if key y = key x then x else y)
  else xs ++ [x]

/-- Dexie `bulkPut`: put each row in order. -/
def bulkPut {α : Type} {β : Type} [DecidableEq β] (key : α → β) (xs : List α) (news : List α) : List α :=
  news.foldl (putRow key) xs

/-- Dexie `delete` / `where(...).delete()`: drop the rows matching the key. -/
def delRow {α : Type} {β : Type} [DecidableEq β] (key : α → β) (xs : List α) (k : β) : List α :=
  xs.filter (fun y => decide (key y ≠ k))

/-- The remote store plus attachment storage (Remote Access Gateway state). -/
structure RemoteDB where
  time_logs : List TimeLog
  tasks : List Task
  photos : List Photo
  settings : List Settings
  storage : List String
  nextId : Nat
  clock : Nat
  okList : List Bool
deriving DecidableEq, Repr

/-- Consume the outcome of the next gateway call (empty schedule: success). -/
def popOk (r : RemoteDB) : Bool × RemoteDB :=
  match r.okList with
  | [] => (true, r)
  | b :: rest => (b, { r with okList := rest })

/-- Remote `time_logs` upsert with `onConflict: "date,user_id"`: on conflict
the existing row keeps its server-authoritative id and the remaining columns
are overwritten; otherwise the proposed row is inserted. Returns the stored
row (`.select().single()`), or `none` on gateway failure. -/
def remUpsertTimeLog (r : RemoteDB) (row : TimeLog) : Option TimeLog × RemoteDB :=
  let (ok, r) := popOk r
  if !ok then (none, r) else
  match r.time_logs.find? (fun t => decide (t.date = row.date ∧ t.user_id = row.user_id)) with
  | some t =>
      let t' := { row with id := t.id }
      (some t', { r with time_logs := r.time_logs.map (fun u => if u.id = t.id then t' else u) })
  | none => (some row, { r with time_logs := r.time_logs ++ [row] })

/-- Remote `time_logs` delete by id; the schema cascades to children
(spec: an explicit TimeEntry delete cascades to its Tasks and Photos). -/
def remDeleteTimeLog (r : RemoteDB) (i : Key) : RemoteDB :=
  let (ok, r) := popOk r
  if !ok then r else
  { r with time_logs := r.time_logs.filter (fun t => decide (t.id ≠ i)),
           tasks := r.tasks.filter (fun t => decide (t.log_id ≠ i)),
           photos := r.photos.filter (fun p => decide (p.log_id ≠ i)) }

/-- Remote `tasks` insert: the store assigns the id and `created_at`. -/
def remInsertTask (r : RemoteDB) (log_id : Key) (description : String) :
    Option Task × RemoteDB :=
  let (ok, r) := popOk r
  if !ok then (none, r) else
  let t : Task := ⟨Key.srv r.nextId, log_id, description, r.clock⟩
  (some t, { r with tasks := r.tasks ++ [t], nextId := r.nextId + 1, clock := r.clock + 1 })

/-- Remote `tasks` update by id; returns the updated row when it exists
(`.single()` reports an error otherwise). -/
def remUpdateTask (r : RemoteDB) (i : Key) (description : String) :
    Option Task × RemoteDB :=
  let (ok, r) := popOk r
  if !ok then (none, r) else
  match r.tasks.find? (fun t => decide (t.id = i)) with
  | some t =>
      let t' := { t with description := description }
      (some t', { r with tasks := r.tasks.map (fun u => if u.id = i then t' else u) })
  | none => (none, r)

/-- Remote `tasks` delete by id (callers ignore the outcome). -/
def remDeleteTask (r : RemoteDB) (i : Key) : RemoteDB :=
  let (ok, r) := popOk r
  if !ok then r else
  { r with tasks := r.tasks.filter (fun t => decide (t.id ≠ i)) }

/-- Remote `photos` insert: the store assigns the id and `created_at`. -/
def remInsertPhoto (r : RemoteDB) (log_id : Key) (url : String) :
    Option Photo × RemoteDB :=
  let (ok, r) := popOk r
  if !ok then (none, r) else
  let p : Photo := ⟨Key.srv r.nextId, log_id, url, r.clock, none, none⟩
  (some p, { r with photos := r.photos ++ [p], nextId := r.nextId + 1, clock := r.clock + 1 })

/-- Remote `photos` delete by id (callers ignore the outcome). -/
def remDeletePhoto (r : RemoteDB) (i : Key) : RemoteDB :=
  let (ok, r) := popOk r
  if !ok then r else
  { r with photos := r.photos.filter (fun p => decide (p.id ≠ i)) }

/-- Remote `settings` select by `user_id` (`maybeSingle`): `none` means the
gateway call failed, `some none` a successful empty result. -/
def remSelectSettings (r : RemoteDB) (uid : String) :
    Option (Option Settings) × RemoteDB :=
  let (ok, r) := popOk r
  if !ok then (none, r) else
  (some (r.settings.find? (fun s => decide (s.user_id = uid))), r)

/-- Remote `settings` insert of the default row; the store assigns the id and
enforces the unique constraint on `user_id`. -/
def remInsertSettings (r : RemoteDB) (uid : String) : Option Settings × RemoteDB :=
  let (ok, r) := popOk r
  if !ok then (none, r) else
  if r.settings.any (fun s => decide (s.user_id = uid)) then (none, r) else
  let s : Settings := ⟨Key.srv r.nextId, uid, 600, "green", "light"⟩
  (some s, { r with settings := r.settings ++ [s], nextId := r.nextId + 1 })

/-- Merge a partial settings payload into a row. -/
def applySettingsFields (s : Settings) (required : Option Int) (accent : Option String)
    (theme : Option String) : Settings :=
  { s with required_ojt_hours := required.getD s.required_ojt_hours,
           accent_color := accent.getD s.accent_color,
           theme := theme.getD s.theme }

/-- Remote `settings` update by `user_id`; returns the updated row when one
exists (`.single()` reports an error otherwise). -/
def remUpdateSettingsByUser (r : RemoteDB) (uid : String) (required : Option Int)
    (accent : Option String) (theme : Option String) : Option Settings × RemoteDB :=
  let (ok, r) := popOk r
  if !ok then (none, r) else
  match r.settings.find? (fun s => decide (s.user_id = uid)) with
  | some s =>
      let s' := applySettingsFields s required accent theme
      (some s', { r with settings := r.settings.map (fun u => if u.id = s.id then s' else u) })
  | none => (none, r)

/-- Storage bucket base of the public URLs the gateway hands out. -/
def urlBase : String := "https://app.supabase.co/storage/v1/object/public/ojt-logs/"

/-- `storage.getPublicUrl` (a pure client-side computation in supabase-js). -/
def pubUrl (path : String) : String := urlBase ++ path

/-- `storage.upload` with `upsert: false`: fails on a duplicate path. -/
def stUpload (r : RemoteDB) (path : String) : Bool × RemoteDB :=
  let (ok, r) := popOk r
  if ok && !(r.storage.contains path) then
    (true, { r with storage := r.storage ++ [path] })
  else (false, r)

/-- `storage.remove` (callers ignore the outcome). -/
def stRemove (r : RemoteDB) (path : String) : RemoteDB :=
  let (ok, r) := popOk r
  if !ok then r else
  { r with storage := r.storage.filter (fun p => decide (p ≠ path)) }

/-- Recover the storage path from a public URL, as `deletePhoto` does by
splitting on the bucket marker; data URLs yield nothing. -/
def parseStoragePath (u : String) : Option String :=
  if urlBase.isPrefixOf u then some (u.drop urlBase.length) else none

/-- Remote `time_logs` select by user (seeding). -/
def remSelectLogs (r : RemoteDB) (uid : String) : Option (List TimeLog) × RemoteDB :=
  let (ok, r) := popOk r
  if !ok then (none, r) else
  (some (r.time_logs.filter (fun t => decide (t.user_id = uid))), r)

/-- Remote `tasks` select joined on the owning log's user (seeding). -/
def remSelectTasks (r : RemoteDB) (uid : String) : Option (List Task) × RemoteDB :=
  let (ok, r) := popOk r
  if !ok then (none, r) else
  (some (r.tasks.filter (fun t =>
    r.time_logs.any (fun l => decide (l.id = t.log_id ∧ l.user_id = uid)))), r)

/-- Remote `photos` select joined on the owning log's user (seeding). -/
def remSelectPhotos (r : RemoteDB) (uid : String) : Option (List Photo) × RemoteDB :=
  let (ok, r) := popOk r
  if !ok then (none, r) else
  (some (r.photos.filter (fun p =>
    r.time_logs.any (fun l => decide (l.id = p.log_id ∧ l.user_id = uid)))), r)

/-- The Dexie local mirror (`offline-db`): four collections plus the
append-only sync queue with its auto-incrementing key. -/
structure LocalDB where
  time_logs : List TimeLog
  tasks : List Task
  photos : List Photo
  settings : List Settings
  sync_queue : List QueueItem
  nextQueueId : Nat
deriving DecidableEq, Repr

/-- Observable events of a repository operation, in program order. -/
inductive Ev where
  | localWrite (t : Table)
  | remoteWrite (t : Table)
  | remoteStorage
  | replayAttempt (q : Nat) (ok : Bool)
deriving DecidableEq, Repr

/-- Full system state: local mirror, remote gateway state, connectivity,
the authenticated principal, the uuid source, and the wall clock. -/
structure St where
  loc : LocalDB
  rem : RemoteDB
  online : Bool
  uid : String
  gen : Nat
  now : Nat
deriving DecidableEq, Repr

/-- Read the clock (`nowISO()` / `Date.now()`); successive reads advance. -/
def tick (s : St) : Nat × St := (s.now, { s with now := s.now + 1 })

/-- Draw a fresh app-side id (`uuid()`). -/
def uuid (s : St) : Key × St := (Key.lgen s.gen, { s with gen := s.gen + 1 })

/-- `db.sync_queue.add`: append an entry under the next auto-increment key. -/
def enqueue (s : St) (table : Table) (action : Action) (rowId : Key)
    (payload : Option Payload) (createdAt : Nat) : St :=
  { s with loc := { s.loc with
      sync_queue := s.loc.sync_queue ++
        [⟨s.loc.nextQueueId, table, action, rowId, payload, createdAt⟩],
      nextQueueId := s.loc.nextQueueId + 1 } }

/-- Delete a queue entry by its auto-increment key. -/
def delQ (s : St) (q : Nat) : St :=
  { s with loc := { s.loc with
      sync_queue := delRow QueueItem.queueId s.loc.sync_queue q } }

/-- Render a key into a storage path segment. -/
def keyStr : Key → String
  | .lgen n => "L" ++ toString n
  | .srv n => "S" ++ toString n

/-- The storage path `userId/logId/timestamp-filename`. -/
def mkPath (uid : String) (lg : Key) (dn : Nat) (fn : String) : String :=
  uid ++ "/" ++ keyStr lg ++ "/" ++ toString dn ++ "-" ++ fn

/-- The caller-supplied part of `upsertTimeLog`'s argument
(`Partial<TimeLog> & { date: string }`; absent fields collapse to null). -/
structure UpsertArg where
  date : String
  time_in : Option String
  time_out : Option String
  hours_rendered : Option Int
deriving DecidableEq, Repr

/-- `upsertTimeLog`: reuse the existing local row's id for the (date, owner)
or draw a fresh uuid, write locally, then try the remote upsert (reconciling
a server-assigned id into the local row and its children) or enqueue. -/
def upsertTimeLog (arg : UpsertArg) (s : St) : TimeLog × St × List Ev :=
  let userId := s.uid
  let (now, s) := tick s
  let existing := s.loc.time_logs.find? (fun t => decide (t.date = arg.date ∧ t.user_id = userId))
  let (id, s) := match existing with
    | some t => (t.id, s)
    | none => uuid s
  let row : TimeLog :=
    ⟨id, arg.date, arg.time_in, arg.time_out, arg.hours_rendered, userId,
     match existing with | some t => t.created_at | none => now⟩
  let s := { s with loc := { s.loc with time_logs := putRow TimeLog.id s.loc.time_logs row } }
  let tr := [Ev.localWrite Table.time_logs]
  if s.online then
    let (res, rem') := remUpsertTimeLog s.rem row
    let s := { s with rem := rem' }
    let tr := tr ++ [Ev.remoteWrite Table.time_logs]
    match res with
    | some data =>
        if data.id = row.id then (data, s, tr)
        else
          let s := { s with loc := { s.loc with
            time_logs := putRow TimeLog.id (delRow TimeLog.id s.loc.time_logs row.id) data,
            tasks := s.loc.tasks.map
              (fun t => if t.log_id = row.id then { t with log_id := data.id } else t),
            photos := s.loc.photos.map
              (fun p => if p.log_id = row.id then { p with log_id := data.id } else p) } }
          (data, s, tr ++ [Ev.localWrite Table.time_logs, Ev.localWrite Table.tasks,
                           Ev.localWrite Table.photos])
    | none =>
        (row, enqueue s .time_logs .upsert row.id (some (.timeLogRow row)) now, tr)
  else
    (row, enqueue s .time_logs .upsert row.id (some (.timeLogRow row)) now, tr)

/-- `deleteTimeLog`: delete locally with child cascade, then remote delete
(outcome ignored) when online, else enqueue. -/
def deleteTimeLog (i : Key) (s : St) : St × List Ev :=
  let s := { s with loc := { s.loc with
    time_logs := delRow TimeLog.id s.loc.time_logs i,
    tasks := s.loc.tasks.filter (fun t => decide (t.log_id ≠ i)),
    photos := s.loc.photos.filter (fun p => decide (p.log_id ≠ i)) } }
  let tr := [Ev.localWrite Table.time_logs, Ev.localWrite Table.tasks, Ev.localWrite Table.photos]
  if s.online then
    ({ s with rem := remDeleteTimeLog s.rem i }, tr ++ [Ev.remoteWrite Table.time_logs])
  else
    let (now, s) := tick s
    (enqueue s .time_logs .delete i none now, tr)

/-- `createTask`: write the speculative row locally, then remote insert
(adopting the server-assigned id) or enqueue. -/
def createTask (logId : Key) (description : String) (s : St) : Task × St × List Ev :=
  let (now, s) := tick s
  let (tid, s) := uuid s
  let row : Task := ⟨tid, logId, description, now⟩
  let s := { s with loc := { s.loc with tasks := putRow Task.id s.loc.tasks row } }
  let tr := [Ev.localWrite Table.tasks]
  if s.online then
    let (res, rem') := remInsertTask s.rem logId description
    let s := { s with rem := rem' }
    let tr := tr ++ [Ev.remoteWrite Table.tasks]
    match res with
    | some data =>
        if data.id ≠ row.id then
          (data, { s with loc := { s.loc with
             tasks := putRow Task.id (delRow Task.id s.loc.tasks row.id) data } },
           tr ++ [Ev.localWrite Table.tasks])
        else (data, s, tr)
    | none => (row, enqueue s .tasks .insert row.id (some (.taskRow row)) now, tr)
  else (row, enqueue s .tasks .insert row.id (some (.taskRow row)) now, tr)

/-- `updateTask`: throw "Task not found" when the id is not in the local
mirror; otherwise write locally then remote update or enqueue. -/
def updateTask (i : Key) (description : String) (s : St) :
    Except String Task × St × List Ev :=
  match s.loc.tasks.find? (fun t => decide (t.id = i)) with
  | none => (Except.error "Task not found", s, [])
  | some existing =>
      let updated := { existing with description := description }
      let s := { s with loc := { s.loc with tasks := putRow Task.id s.loc.tasks updated } }
      let tr := [Ev.localWrite Table.tasks]
      if s.online then
        let (res, rem') := remUpdateTask s.rem i description
        let s := { s with rem := rem' }
        let tr := tr ++ [Ev.remoteWrite Table.tasks]
        match res with
        | some data => (Except.ok data, s, tr)
        | none =>
            let (now, s) := tick s
            (Except.ok updated, enqueue s .tasks .update i (some (.descOnly description)) now, tr)
      else
        let (now, s) := tick s
        (Except.ok updated, enqueue s .tasks .update i (some (.descOnly description)) now, tr)

/-- `deleteTask`: delete locally, then remote delete (outcome ignored) when
online, else enqueue. -/
def deleteTask (i : Key) (s : St) : St × List Ev :=
  let s := { s with loc := { s.loc with tasks := delRow Task.id s.loc.tasks i } }
  let tr := [Ev.localWrite Table.tasks]
  if s.online then
    ({ s with rem := remDeleteTask s.rem i }, tr ++ [Ev.remoteWrite Table.tasks])
  else
    let (now, s) := tick s
    (enqueue s .tasks .delete i none now, tr)

/-- A captured file: name plus (abstracted) binary content. -/
structure FileArg where
  name : String
  content : String
deriving DecidableEq, Repr

/-- `fileToBase64`: the data-URL encoding of the file's bytes. -/
def fileToBase64 (f : FileArg) : String := "data:image/;base64," ++ f.content

/-- The offline tail of `uploadPhoto`: store the base64 row locally and
enqueue an insert carrying only the log reference and the filename. -/
def uploadPhotoOffline (logId : Key) (file : FileArg) (photoId : Key) (now : Nat)
    (s : St) (tr : List Ev) : Photo × St × List Ev :=
  let base64 := fileToBase64 file
  let row : Photo := ⟨photoId, logId, base64, now, some base64, some file.name⟩
  let s := { s with loc := { s.loc with photos := putRow Photo.id s.loc.photos row } }
  let s := enqueue s .photos .insert photoId (some (.photoIns logId file.name)) now
  (⟨photoId, logId, base64, now, none, none⟩, s, tr ++ [Ev.localWrite Table.photos])

/-- `uploadPhoto`: when online, upload to storage and insert the remote row
(caching it locally); on any failure or when offline, store the base64 row
locally and enqueue. -/
def uploadPhoto (logId : Key) (file : FileArg) (s : St) : Photo × St × List Ev :=
  let userId := s.uid
  let (now, s) := tick s
  let (photoId, s) := uuid s
  if s.online then
    let (dn, s) := tick s
    let path := mkPath userId logId dn file.name
    let (ok, rem') := stUpload s.rem path
    let s := { s with rem := rem' }
    let tr := [Ev.remoteStorage]
    if ok then
      let url := pubUrl path
      let (res, rem2) := remInsertPhoto s.rem logId url
      let s := { s with rem := rem2 }
      let tr := tr ++ [Ev.remoteWrite Table.photos]
      match res with
      | some data =>
          (data, { s with loc := { s.loc with photos := putRow Photo.id s.loc.photos data } },
           tr ++ [Ev.localWrite Table.photos])
      | none => uploadPhotoOffline logId file photoId now s tr
    else uploadPhotoOffline logId file photoId now s tr
  else uploadPhotoOffline logId file photoId now s []

/-- `deletePhoto`: delete locally, then (online) best-effort storage removal
and remote delete, else enqueue a delete carrying the image URL. -/
def deletePhoto (photo : Photo) (s : St) : St × List Ev :=
  let s := { s with loc := { s.loc with photos := delRow Photo.id s.loc.photos photo.id } }
  let tr := [Ev.localWrite Table.photos]
  if s.online then
    let (s, tr) :=
      match parseStoragePath photo.image_url with
      | some path => ({ s with rem := stRemove s.rem path }, tr ++ [Ev.remoteStorage])
      | none => (s, tr)
    ({ s with rem := remDeletePhoto s.rem photo.id }, tr ++ [Ev.remoteWrite Table.photos])
  else
    let (now, s) := tick s
    (enqueue s .photos .delete photo.id (some (.photoDel photo.image_url)) now, tr)

/-- The offline fallback of `getSettings`: return the cached row or
synthesize (and persist) a local default. -/
def getSettingsOffline (s : St) (tr : List Ev) : Settings × St × List Ev :=
  match s.loc.settings.find? (fun x => decide (x.user_id = s.uid)) with
  | some cached => (cached, s, tr)
  | none =>
      let (sid, s) := uuid s
      let defaults : Settings := ⟨sid, s.uid, 600, "green", "light"⟩
      let s := { s with loc := { s.loc with settings := putRow Settings.id s.loc.settings defaults } }
      (defaults, s, tr ++ [Ev.localWrite Table.settings])

/-- `getSettings`: fetch-or-create against the remote when online (caching
the result), falling back to the local cache or a synthesized default. -/
def getSettings (s : St) : Settings × St × List Ev :=
  if s.online then
    let (res, rem') := remSelectSettings s.rem s.uid
    let s := { s with rem := rem' }
    match res with
    | none => getSettingsOffline s []
    | some (some data) =>
        (data, { s with loc := { s.loc with settings := putRow Settings.id s.loc.settings data } },
         [Ev.localWrite Table.settings])
    | some none =>
        let (res2, rem2) := remInsertSettings s.rem s.uid
        let s := { s with rem := rem2 }
        let tr := [Ev.remoteWrite Table.settings]
        match res2 with
        | some newSettings =>
            (newSettings,
             { s with loc := { s.loc with settings := putRow Settings.id s.loc.settings newSettings } },
             tr ++ [Ev.localWrite Table.settings])
        | none => getSettingsOffline s tr
  else getSettingsOffline s []

/-- `updateSettings`: fetch-or-create, write the updated row locally, then
remote update by owner or enqueue. -/
def updateSettings (requiredHours : Int) (s : St) : Settings × St × List Ev :=
  let userId := s.uid
  let (current, s, tr) := getSettings s
  let updated := { current with required_ojt_hours := requiredHours }
  let s := { s with loc := { s.loc with settings := putRow Settings.id s.loc.settings updated } }
  let tr := tr ++ [Ev.localWrite Table.settings]
  if s.online then
    let (res, rem') := remUpdateSettingsByUser s.rem userId (some requiredHours) none none
    let s := { s with rem := rem' }
    let tr := tr ++ [Ev.remoteWrite Table.settings]
    match res with
    | some data =>
        (data, { s with loc := { s.loc with settings := putRow Settings.id s.loc.settings data } },
         tr ++ [Ev.localWrite Table.settings])
    | none =>
        let (now, s) := tick s
        (updated,
         enqueue s .settings .update current.id
           (some (.settingsFields (some requiredHours) none none)) now, tr)
  else
    let (now, s) := tick s
    (updated,
     enqueue s .settings .update current.id
       (some (.settingsFields (some requiredHours) none none)) now, tr)

/-- `seedOfflineDB`: while online, bulk-fetch the four collections scoped to
the principal and refresh the local mirror inside one transaction; no-op
offline. The transaction body mirrors the source: time logs are replaced
wholesale for the owner, tasks and photos only where the fetch returned rows
(and only for the fetched rows' log ids), and the settings row is put. -/
def seedOfflineDB (s : St) : St :=
  if !s.online then s else
  let userId := s.uid
  let (logsRes, rem) := remSelectLogs s.rem userId
  let (tasksRes, rem) := remSelectTasks rem userId
  let (photosRes, rem) := remSelectPhotos rem userId
  let (settingsRes, rem) := remSelectSettings rem userId
  let s := { s with rem := rem }
  let lgs :=
    match logsRes with
    | some data =>
        let cleared := delRow TimeLog.user_id s.loc.time_logs userId
        if data.isEmpty then cleared else bulkPut TimeLog.id cleared data
    | none => delRow TimeLog.user_id s.loc.time_logs userId
  let tks :=
    match tasksRes with
    | some data =>
        if data.isEmpty then s.loc.tasks
        else
          let logIds := data.map Task.log_id
          bulkPut Task.id (s.loc.tasks.filter (fun t => decide (t.log_id ∉ logIds))) data
    | none => s.loc.tasks
  let phs :=
    match photosRes with
    | some data =>
        if data.isEmpty then s.loc.photos
        else
          let logIds := data.map Photo.log_id
          bulkPut Photo.id (s.loc.photos.filter (fun p => decide (p.log_id ∉ logIds))) data
    | none => s.loc.photos
  let sts :=
    match settingsRes with
    | some (some st) => putRow Settings.id s.loc.settings st
    | _ => s.loc.settings
  { s with loc := { s.loc with time_logs := lgs, tasks := tks, photos := phs, settings := sts } }

/-- Replay handler for `time_logs` queue entries. -/
def syncTimeLog (item : QueueItem) (s : St) : Bool × St :=
  match item.action, item.payload with
  | .delete, _ => (true, { s with rem := remDeleteTimeLog s.rem item.rowId })
  | .upsert, some (.timeLogRow row) =>
      let (res, rem') := remUpsertTimeLog s.rem { row with user_id := s.uid }
      let s := { s with rem := rem' }
      match res with
      | some data =>
          if data.id ≠ item.rowId then
            (true, { s with loc := { s.loc with
              time_logs := putRow TimeLog.id (delRow TimeLog.id s.loc.time_logs item.rowId) data,
              tasks := s.loc.tasks.map
                (fun t => if t.log_id = item.rowId then { t with log_id := data.id } else t),
              photos := s.loc.photos.map
                (fun p => if p.log_id = item.rowId then { p with log_id := data.id } else p) } })
          else (true, s)
      | none => (true, s)
  | _, _ => (true, s)

/-- Replay handler for `tasks` queue entries. -/
def syncTask (item : QueueItem) (s : St) : Bool × St :=
  match item.action, item.payload with
  | .delete, _ => (true, { s with rem := remDeleteTask s.rem item.rowId })
  | .insert, some (.taskRow row) =>
      let (res, rem') := remInsertTask s.rem row.log_id row.description
      let s := { s with rem := rem' }
      match res with
      | some data =>
          if data.id ≠ item.rowId then
            (true, { s with loc := { s.loc with
              tasks := putRow Task.id (delRow Task.id s.loc.tasks item.rowId) data } })
          else (true, s)
      | none => (true, s)
  | .update, some (.descOnly d) =>
      let (_, rem') := remUpdateTask s.rem item.rowId d
      (true, { s with rem := rem' })
  | _, _ => (true, s)

/-- Replay handler for `photos` queue entries; an upload failure throws. -/
def syncPhoto (item : QueueItem) (s : St) : Bool × St :=
  match item.action, item.payload with
  | .delete, pl =>
      let s :=
        match pl with
        | some (.photoDel u) =>
            match parseStoragePath u with
            | some path => { s with rem := stRemove s.rem path }
            | none => s
        | _ => s
      (true, { s with rem := remDeletePhoto s.rem item.rowId })
  | .insert, some (.photoIns lg fn) =>
      match s.loc.photos.find? (fun p => decide (p.id = item.rowId)) with
      | none => (true, s)
      | some localPhoto =>
          match localPhoto.offline_blob with
          | none => (true, s)
          | some _ =>
              let userId := s.uid
              let (dn, s) := tick s
              let path := mkPath userId lg dn fn
              let (ok, rem') := stUpload s.rem path
              let s := { s with rem := rem' }
              if !ok then (false, s)
              else
                let url := pubUrl path
                let (res, rem2) := remInsertPhoto s.rem lg url
                let s := { s with rem := rem2 }
                match res with
                | some data =>
                    (true, { s with loc := { s.loc with
                      photos := putRow Photo.id (delRow Photo.id s.loc.photos item.rowId) data } })
                | none => (true, s)
  | _, _ => (true, s)

/-- Replay handler for `settings` queue entries. -/
def syncSettings (item : QueueItem) (s : St) : Bool × St :=
  match item.action, item.payload with
  | .update, some (.settingsFields rq ac th) =>
      let (_, rem') := remUpdateSettingsByUser s.rem s.uid rq ac th
      (true, { s with rem := rem' })
  | _, _ => (true, s)

/-- Dispatch a queue entry to its collection-specific handler. -/
def dispatch (item : QueueItem) (s : St) : Bool × St :=
  match item.table with
  | .time_logs => syncTimeLog item s
  | .tasks => syncTask item s
  | .photos => syncPhoto item s
  | .settings => syncSettings item s

/-- The drain loop of `processSyncQueue`: replay each snapshot entry in
order; on handler success delete the entry from the queue and count it, on
failure leave it and continue. -/
def drainLoop : List QueueItem → St → Nat → Nat × St × List Ev
  | [], s, synced => (synced, s, [])
  | item :: rest, s, synced =>
      let (ok, s) := dispatch item s
      if ok then
        let s := { s with loc := { s.loc with
          sync_queue := delRow QueueItem.queueId s.loc.sync_queue item.queueId } }
        let (n, s', tr) := drainLoop rest s (synced + 1)
        (n, s', Ev.replayAttempt item.queueId true :: tr)
      else
        let (n, s', tr) := drainLoop rest s synced
        (n, s', Ev.replayAttempt item.queueId false :: tr)

/-- `processSyncQueue`: no-op returning 0 while offline; otherwise replay the
queue snapshot in ascending `queueId` order and return the success count. -/
def processSyncQueue (s : St) : Nat × St × List Ev :=
  if !s.online then (0, s, [])
  else
    let items := List.insertionSort (fun a b => a.queueId ≤ b.queueId) s.loc.sync_queue
    if items.isEmpty then (0, s, []) else drainLoop items s 0

/-- Does every remote attempt in a trace come after a local-mirror write?
Scans to the first store event: `true` when that event is a local write, or
when no store event occurs at all. -/
def localFirst : List Ev → Bool
  | [] => true
  | Ev.localWrite _ :: _ => true
  | Ev.remoteWrite _ :: _ => false
  | Ev.remoteStorage :: _ => false
  | Ev.replayAttempt _ _ :: rest => localFirst rest

/-- The queue ids attempted by a drain, in trace order. -/
def attemptIds (tr : List Ev) : List Nat :=
  tr.filterMap (fun e => match e with | Ev.replayAttempt q _ => some q | _ => none)

instance : IsTotal QueueItem (fun a b => a.queueId ≤ b.queueId) :=
  ⟨fun a b => Nat.le_total a.queueId b.queueId⟩

instance : IsTrans QueueItem (fun a b => a.queueId ≤ b.queueId) :=
  ⟨fun _ _ _ => Nat.le_trans⟩

/-- The time logs the seeding fetch returns for the signed-in principal. -/
def fetchedLogs (s : St) : List TimeLog :=
  s.rem.time_logs.filter (fun t => decide (t.user_id = s.uid))

/-- The tasks the seeding join fetch returns for the signed-in principal. -/
def fetchedTasks (s : St) : List Task :=
  s.rem.tasks.filter (fun t =>
    s.rem.time_logs.any (fun l => decide (l.id = t.log_id ∧ l.user_id = s.uid)))

/-- The photos the seeding join fetch returns for the signed-in principal. -/
def fetchedPhotos (s : St) : List Photo :=
  s.rem.photos.filter (fun p =>
    s.rem.time_logs.any (fun l => decide (l.id = p.log_id ∧ l.user_id = s.uid)))

/-- Program counter of one in-flight `getSettings` call: each constructor
is a point between two awaited store operations, so two concurrent calls
interleave exactly at these boundaries (the JS event-loop model). -/
inductive GsPC where
  | start
  | insDefault
  | putRemote (row : Settings)
  | localGet
  | putLocalDefault
  | done (ret : Settings)
deriving DecidableEq, Repr

/-- One atomic step (up to the next await) of a `getSettings` call against
the shared local/remote state. -/
def gsStep : GsPC → St → GsPC × St
  | .start, s =>
      if s.online then
        let (res, rem') := remSelectSettings s.rem s.uid
        let s := { s with rem := rem' }
        match res with
        | none => (.localGet, s)
        | some (some row) => (.putRemote row, s)
        | some none => (.insDefault, s)
      else (.localGet, s)
  | .insDefault, s =>
      let (res, rem') := remInsertSettings s.rem s.uid
      let s := { s with rem := rem' }
      match res with
      | some row => (.putRemote row, s)
      | none => (.localGet, s)
  | .putRemote row, s =>
      (.done row,
       { s with loc := { s.loc with settings := putRow Settings.id s.loc.settings row } })
  | .localGet, s =>
      match s.loc.settings.find? (fun x => decide (x.user_id = s.uid)) with
      | some cached => (.done cached, s)
      | none => (.putLocalDefault, s)
  | .putLocalDefault, s =>
      let (sid, s) := uuid s
      let defaults : Settings := ⟨sid, s.uid, 600, "green", "light"⟩
      (.done defaults,
       { s with loc := { s.loc with settings := putRow Settings.id s.loc.settings defaults } })
  | .done r, s => (.done r, s)

/-- Iterate `gsStep` a fixed number of times (a single call, run alone). -/
def gsRun : Nat → GsPC × St → GsPC × St
  | 0, p => p
  | n + 1, (pc, s) => gsRun n (gsStep pc s)

/-- Run two interleaved `getSettings` calls under a schedule: `true` steps
the first caller, `false` the second. -/
def runConc : List Bool → GsPC × GsPC × St → GsPC × GsPC × St
  | [], st => st
  | true :: w, (a, b, s) =>
      let (a', s') := gsStep a s
      runConc w (a', b, s')
  | false :: w, (a, b, s) =>
      let (b', s') := gsStep b s
      runConc w (a, b', s')

/-! ## Shared concrete states for witnesses and counterexamples -/

/-- Empty local mirror. -/
def emptyLoc : LocalDB := ⟨[], [], [], [], [], 0⟩

/-- Empty remote store whose every call succeeds. -/
def emptyRem : RemoteDB := ⟨[], [], [], [], [], 0, 0, []⟩

/-- Fresh signed-in state for owner "u1". -/
def freshSt (online : Bool) : St := ⟨emptyLoc, emptyRem, online, "u1", 0, 0⟩

/-- A state with two pending queue entries, used by the drain witnesses. -/
def c4st : St :=
  ⟨⟨[], [], [], [], [⟨0, Table.tasks, Action.delete, Key.lgen 0, none, 0⟩,
     ⟨1, Table.tasks, Action.delete, Key.lgen 1, none, 1⟩], 2⟩,
   emptyRem, true, "u1", 0, 5⟩

/-- The owner's remote (and locally mirrored) time log (C7). -/
def c7log : TimeLog := ⟨Key.lgen 1, "2024-05-01", none, none, none, "u1", 0⟩

/-- A stale local task of the owner that the remote no longer has (C7). -/
def c7stale : Task := ⟨Key.lgen 2, Key.lgen 1, "stale", 0⟩

/-- Online state whose remote fetch returns the log but no tasks (C7). -/
def c7st : St :=
  ⟨⟨[c7log], [c7stale], [], [], [], 0⟩,
   ⟨[c7log], [], [], [], [], 0, 0, []⟩, true, "u1", 3, 4⟩

/-- A queued speculative TimeEntry row (C2 witness). -/
def c2row : TimeLog := ⟨Key.lgen 0, "2024-05-01", some "08:00", none, none, "u1", 5⟩

/-- The remote-confirmed row the upsert returns for `c2row` (C2 witness). -/
def c2data : TimeLog := ⟨Key.srv 7, "2024-05-01", some "08:00", none, none, "u1", 5⟩

/-- The queued upsert entry for `c2row` (C2 witness). -/
def c2item : QueueItem := ⟨0, Table.time_logs, Action.upsert, Key.lgen 0,
  some (Payload.timeLogRow c2row), 5⟩

/-- State replaying `c2item` against a remote that already holds the same
(date, owner) under server id 7 (C2 witness). -/
def c2st : St :=
  ⟨⟨[c2row], [⟨Key.lgen 1, Key.lgen 0, "reviewed logs", 5⟩],
    [⟨Key.lgen 2, Key.lgen 0, "data:x", 5, none, none⟩], [], [c2item], 1⟩,
   ⟨[⟨Key.srv 7, "2024-05-01", none, none, none, "u1", 3⟩], [], [], [], [], 8, 9, []⟩,
   true, "u1", 3, 6⟩

/-! ## Library lemmas about the Dexie primitives -/

theorem mem_delRow {α β : Type} [DecidableEq β] {key : α → β} {xs : List α} {k : β} {x : α} :
    x ∈ delRow key xs k ↔ x ∈ xs ∧ key x ≠ k := by
  simp [delRow]

theorem self_mem_putRow {α β : Type} [DecidableEq β] (key : α → β) (xs : List α) (x : α) :
    x ∈ putRow key xs x := by
  unfold putRow
  split
  · next h =>
      simp only [List.any_eq_true, decide_eq_true_eq] at h
      obtain ⟨y, hy, hk⟩ := h
      exact List.mem_map.mpr ⟨y, hy, by simp [hk]⟩
  · simp

theorem mem_putRow {α β : Type} [DecidableEq β] {key : α → β} {xs : List α} {x y : α}
    (h : y ∈ putRow key xs x) : y = x ∨ y ∈ xs := by
  unfold putRow at h
  split at h
  · obtain ⟨z, hz, hzy⟩ := List.mem_map.mp h
    by_cases hk : key z = key x
    · rw [if_pos hk] at hzy
      exact Or.inl hzy.symm
    · rw [if_neg hk] at hzy
      subst hzy
      exact Or.inr hz
  · rcases List.mem_append.mp h with h | h
    · exact Or.inr h
    · exact Or.inl (by simpa using h)

theorem mem_putRow_of_ne {α β : Type} [DecidableEq β] {key : α → β} {xs : List α} {x y : α}
    (hy : y ∈ xs) (hne : key y ≠ key x) : y ∈ putRow key xs x := by
  unfold putRow
  split
  · exact List.mem_map.mpr ⟨y, hy, by rw [if_neg hne]⟩
  · exact List.mem_append_left _ hy

theorem mem_bulkPut {α β : Type} [DecidableEq β] {key : α → β} {xs news : List α} {x : α}
    (h : x ∈ bulkPut key xs news) : x ∈ xs ∨ x ∈ news := by
  induction news generalizing xs with
  | nil => exact Or.inl h
  | cons n rest ih =>
      have h' : x ∈ bulkPut key (putRow key xs n) rest := h
      rcases ih h' with h2 | h2
      · rcases mem_putRow h2 with h3 | h3
        · exact Or.inr (h3 ▸ List.mem_cons_self _ _)
        · exact Or.inl h3
      · exact Or.inr (List.mem_cons_of_mem _ h2)

theorem mem_bulkPut_left {α β : Type} [DecidableEq β] {key : α → β} {xs news : List α} {x : α}
    (hx : x ∈ xs) (hk : key x ∉ news.map key) : x ∈ bulkPut key xs news := by
  induction news generalizing xs with
  | nil => exact hx
  | cons n rest ih =>
      simp only [List.map_cons, List.mem_cons, not_or] at hk
      exact ih (mem_putRow_of_ne hx hk.1) hk.2

theorem mem_bulkPut_right {α β : Type} [DecidableEq β] {key : α → β} {xs news : List α} {x : α}
    (hnd : (news.map key).Nodup) (hx : x ∈ news) : x ∈ bulkPut key xs news := by
  induction news generalizing xs with
  | nil => cases hx
  | cons n rest ih =>
      simp only [List.map_cons, List.nodup_cons] at hnd
      rcases List.mem_cons.mp hx with rfl | hx'
      · show x ∈ bulkPut key (putRow key xs x) rest
        exact mem_bulkPut_left (self_mem_putRow key xs x) hnd.1
      · show x ∈ bulkPut key (putRow key xs n) rest
        exact ih hnd.2 hx'

theorem map_eq_self_of {α : Type} {f : α → α} {l : List α} (h : ∀ x ∈ l, f x = x) :
    l.map f = l := by
  induction l with
  | nil => rfl
  | cons a l ih =>
      simp only [List.map_cons]
      rw [h a (List.mem_cons_self a l), ih (fun x hx => h x (List.mem_cons_of_mem _ hx))]

theorem putRow_eq_append {α β : Type} [DecidableEq β] {key : α → β} {xs : List α} {x : α}
    (h : ∀ z ∈ xs, key z ≠ key x) : putRow key xs x = xs ++ [x] := by
  unfold putRow
  rw [if_neg]
  intro hex
  simp only [List.any_eq_true, decide_eq_true_eq] at hex
  obtain ⟨z, hz, hk⟩ := hex
  exact h z hz hk

theorem putRow_append_last {α β : Type} [DecidableEq β] {key : α → β} {xs : List α} {y x : α}
    (hy : key y = key x) (hxs : ∀ z ∈ xs, key z ≠ key x) :
    putRow key (xs ++ [y]) x = xs ++ [x] := by
  unfold putRow
  rw [if_pos]
  · rw [List.map_append]
    congr 1
    · refine map_eq_self_of (fun z hz => ?_)
      rw [if_neg]
      intro hk
      exact hxs z hz hk
    · simp [hy]
  · simp only [List.any_append, Bool.or_eq_true, List.any_eq_true, decide_eq_true_eq]
    exact Or.inr ⟨y, List.mem_singleton_self y, hy⟩

theorem delRow_sublist {α β : Type} [DecidableEq β] (key : α → β) (xs : List α) (k : β) :
    (delRow key xs k).Sublist xs :=
  List.filter_sublist xs

theorem not_mem_map_delRow {α β : Type} [DecidableEq β] (key : α → β) (xs : List α) (k : β) :
    k ∉ (delRow key xs k).map key := by
  intro h
  obtain ⟨x, hx, hk⟩ := List.mem_map.mp h
  exact (mem_delRow.mp hx).2 hk

theorem mem_map_delRow_of_ne {α β : Type} [DecidableEq β] {key : α → β} {xs : List α}
    {k q : β} (hq : q ∈ xs.map key) (hne : q ≠ k) : q ∈ (delRow key xs k).map key := by
  obtain ⟨x, hx, hk⟩ := List.mem_map.mp hq
  exact List.mem_map.mpr ⟨x, mem_delRow.mpr ⟨hx, by rw [hk]; exact hne⟩, hk⟩

theorem delRow_eq_self {α β : Type} [DecidableEq β] {key : α → β} {xs : List α} {k : β}
    (h : k ∉ xs.map key) : delRow key xs k = xs := by
  unfold delRow
  apply List.filter_eq_self.mpr
  intro x hx
  simp only [ne_eq, decide_not, Bool.not_eq_true', decide_eq_false_iff_not]
  intro he
  exact h (List.mem_map.mpr ⟨x, hx, he⟩)

theorem length_delRow {α β : Type} [DecidableEq β] {key : α → β} {xs : List α} {k : β}
    (hnd : (xs.map key).Nodup) (hk : k ∈ xs.map key) :
    (delRow key xs k).length + 1 = xs.length := by
  induction xs with
  | nil => simp at hk
  | cons x xs ih =>
      simp only [List.map_cons, List.nodup_cons] at hnd
      by_cases he : key x = k
      · have h1 : delRow key (x :: xs) k = delRow key xs k := by
          simp [delRow, he]
        have h2 : delRow key xs k = xs := delRow_eq_self (by rw [← he]; exact hnd.1)
        rw [h1, h2]
        rfl
      · have hk' : k ∈ xs.map key := by
          rw [List.map_cons] at hk
          rcases List.mem_cons.mp hk with h | h
          · exact absurd h.symm he
          · exact h
        have h1 : delRow key (x :: xs) k = x :: delRow key xs k := by
          simp [delRow, he]
        rw [h1]
        simp only [List.length_cons]
        have := ih hnd.2 hk'
        omega

theorem syncTimeLog_queue (item : QueueItem) (s : St) :
    ((syncTimeLog item s).2).loc.sync_queue = s.loc.sync_queue := by
  unfold syncTimeLog
  repeat' split
  all_goals rfl

theorem syncTask_queue (item : QueueItem) (s : St) :
    ((syncTask item s).2).loc.sync_queue = s.loc.sync_queue := by
  unfold syncTask
  repeat' split
  all_goals rfl

theorem syncPhoto_queue (item : QueueItem) (s : St) :
    ((syncPhoto item s).2).loc.sync_queue = s.loc.sync_queue := by
  simp only [syncPhoto, tick]
  repeat' split
  all_goals rfl

theorem syncSettings_queue (item : QueueItem) (s : St) :
    ((syncSettings item s).2).loc.sync_queue = s.loc.sync_queue := by
  unfold syncSettings
  repeat' split
  all_goals rfl

theorem dispatch_queue (item : QueueItem) (s : St) :
    ((dispatch item s).2).loc.sync_queue = s.loc.sync_queue := by
  unfold dispatch
  cases item.table
  · exact syncTimeLog_queue item s
  · exact syncTask_queue item s
  · exact syncPhoto_queue item s
  · exact syncSettings_queue item s

theorem drainLoop_attempts (items : List QueueItem) (s : St) (n : Nat) :
    attemptIds (drainLoop items s n).2.2 = items.map QueueItem.queueId := by
  induction items generalizing s n with
  | nil => rfl
  | cons item rest ih =>
      unfold drainLoop
      rcases hd : dispatch item s with ⟨ok, s1⟩
      cases ok
      · rcases hrec : drainLoop rest s1 n with ⟨cnt, s2, tr⟩
        have hih := ih s1 n
        rw [hrec] at hih
        simp [hd, hrec, attemptIds] at hih ⊢
        exact hih
      · rcases hrec : drainLoop rest
            { s1 with loc := { s1.loc with
              sync_queue := delRow QueueItem.queueId s1.loc.sync_queue item.queueId } }
            (n + 1) with ⟨cnt, s2, tr⟩
        have hih := ih { s1 with loc := { s1.loc with
          sync_queue := delRow QueueItem.queueId s1.loc.sync_queue item.queueId } } (n + 1)
        rw [hrec] at hih
        simp [hd, hrec, attemptIds] at hih ⊢
        exact hih

theorem drainLoop_sublist (items : List QueueItem) (s : St) (n : Nat) :
    ((drainLoop items s n).2.1).loc.sync_queue.Sublist s.loc.sync_queue := by
  induction items generalizing s n with
  | nil => exact List.Sublist.refl _
  | cons item rest ih =>
      unfold drainLoop
      rcases hd : dispatch item s with ⟨ok, s1⟩
      have hq : s1.loc.sync_queue = s.loc.sync_queue := by
        have := dispatch_queue item s
        rw [hd] at this
        exact this
      cases ok
      · rcases hrec : drainLoop rest s1 n with ⟨cnt, s2, tr⟩
        have hih := ih s1 n
        rw [hrec] at hih
        simp only [hd, hrec]
        rw [hq] at hih
        exact hih
      · rcases hrec : drainLoop rest
            { s1 with loc := { s1.loc with
              sync_queue := delRow QueueItem.queueId s1.loc.sync_queue item.queueId } }
            (n + 1) with ⟨cnt, s2, tr⟩
        have hih := ih { s1 with loc := { s1.loc with
          sync_queue := delRow QueueItem.queueId s1.loc.sync_queue item.queueId } } (n + 1)
        rw [hrec] at hih
        simp only [hd, hrec]
        exact hih.trans ((delRow_sublist _ _ _).trans (by rw [hq]))

theorem mem_attemptIds_of_event {tr : List Ev} {q : Nat} {b : Bool}
    (h : Ev.replayAttempt q b ∈ tr) : q ∈ attemptIds tr :=
  List.mem_filterMap.mpr ⟨_, h, rfl⟩

theorem event_of_mem_attemptIds {tr : List Ev} {q : Nat}
    (h : q ∈ attemptIds tr) : ∃ b, Ev.replayAttempt q b ∈ tr := by
  obtain ⟨e, he, hq⟩ := List.mem_filterMap.mp h
  cases e with
  | replayAttempt q' b =>
      have hq' : q' = q := by simpa using hq
      exact ⟨b, hq' ▸ he⟩
  | localWrite t => simp at hq
  | remoteWrite t => simp at hq
  | remoteStorage => simp at hq

theorem drainLoop_count (items : List QueueItem) (s : St) (n : Nat)
    (hnd : (s.loc.sync_queue.map QueueItem.queueId).Nodup)
    (hsub : ∀ i ∈ items, i.queueId ∈ s.loc.sync_queue.map QueueItem.queueId)
    (hind : (items.map QueueItem.queueId).Nodup) :
    (drainLoop items s n).1 + ((drainLoop items s n).2.1).loc.sync_queue.length
      = n + s.loc.sync_queue.length := by
  induction items generalizing s n with
  | nil => simp [drainLoop]
  | cons item rest ih =>
      unfold drainLoop
      rcases hd : dispatch item s with ⟨ok, s1⟩
      have hq : s1.loc.sync_queue = s.loc.sync_queue := by
        have h := dispatch_queue item s
        rw [hd] at h
        exact h
      simp only [List.map_cons, List.nodup_cons] at hind
      cases ok
      · rcases hrec : drainLoop rest s1 n with ⟨cnt, s2, tr⟩
        have hih := ih s1 n (by rw [hq]; exact hnd)
          (fun i hi => by rw [hq]; exact hsub i (List.mem_cons_of_mem _ hi)) hind.2
        rw [hrec] at hih
        simp only [hd, hrec]
        rw [hq] at hih
        simpa using hih
      · have hmem : item.queueId ∈ s.loc.sync_queue.map QueueItem.queueId :=
          hsub item (List.mem_cons_self _ _)
        have hlen : (delRow QueueItem.queueId s.loc.sync_queue item.queueId).length + 1
            = s.loc.sync_queue.length := length_delRow hnd hmem
        rcases hrec : drainLoop rest
            { s1 with loc := { s1.loc with
              sync_queue := delRow QueueItem.queueId s1.loc.sync_queue item.queueId } }
            (n + 1) with ⟨cnt, s2, tr⟩
        have hnd' : ((delRow QueueItem.queueId s1.loc.sync_queue item.queueId).map
            QueueItem.queueId).Nodup := by
          rw [hq]
          exact hnd.sublist ((delRow_sublist _ _ _).map _)
        have hsub' : ∀ i ∈ rest, i.queueId ∈
            (delRow QueueItem.queueId s1.loc.sync_queue item.queueId).map QueueItem.queueId := by
          intro i hi
          rw [hq]
          refine mem_map_delRow_of_ne (hsub i (List.mem_cons_of_mem _ hi)) ?_
          intro heq
          exact hind.1 (heq ▸ List.mem_map.mpr ⟨i, hi, rfl⟩)
        have hih := ih { s1 with loc := { s1.loc with
            sync_queue := delRow QueueItem.queueId s1.loc.sync_queue item.queueId } }
          (n + 1) hnd' hsub' hind.2
        rw [hrec] at hih
        simp only at hih
        rw [hq] at hih
        simp [hd, hrec]
        omega

theorem drainLoop_preserves_other (items : List QueueItem) (s : St) (n : Nat)
    (item : QueueItem) (hin : item ∈ s.loc.sync_queue)
    (hni : item.queueId ∉ items.map QueueItem.queueId) :
    item ∈ ((drainLoop items s n).2.1).loc.sync_queue := by
  induction items generalizing s n with
  | nil => simpa [drainLoop] using hin
  | cons it rest ih =>
      unfold drainLoop
      rcases hd : dispatch it s with ⟨ok, s1⟩
      have hq : s1.loc.sync_queue = s.loc.sync_queue := by
        have h := dispatch_queue it s
        rw [hd] at h
        exact h
      simp only [List.map_cons, List.mem_cons, not_or] at hni
      cases ok
      · rcases hrec : drainLoop rest s1 n with ⟨cnt, s2, tr⟩
        have hih := ih s1 n (hq ▸ hin) hni.2
        rw [hrec] at hih
        simpa [hd, hrec] using hih
      · rcases hrec : drainLoop rest
            { s1 with loc := { s1.loc with
              sync_queue := delRow QueueItem.queueId s1.loc.sync_queue it.queueId } }
            (n + 1) with ⟨cnt, s2, tr⟩
        have hin' : item ∈ delRow QueueItem.queueId s1.loc.sync_queue it.queueId :=
          mem_delRow.mpr ⟨hq ▸ hin, hni.1⟩
        have hih := ih { s1 with loc := { s1.loc with
            sync_queue := delRow QueueItem.queueId s1.loc.sync_queue it.queueId } }
          (n + 1) hin' hni.2
        rw [hrec] at hih
        simpa [hd, hrec] using hih

theorem drainLoop_cons_success {it : QueueItem} {s s1 : St} (rest : List QueueItem) (n : Nat)
    (hd : dispatch it s = (true, s1)) :
    drainLoop (it :: rest) s n =
      ((drainLoop rest (delQ s1 it.queueId) (n + 1)).1,
       (drainLoop rest (delQ s1 it.queueId) (n + 1)).2.1,
       Ev.replayAttempt it.queueId true :: (drainLoop rest (delQ s1 it.queueId) (n + 1)).2.2) := by
  conv_lhs => unfold drainLoop
  rw [hd]
  rfl

theorem drainLoop_cons_failure {it : QueueItem} {s s1 : St} (rest : List QueueItem) (n : Nat)
    (hd : dispatch it s = (false, s1)) :
    drainLoop (it :: rest) s n =
      ((drainLoop rest s1 n).1, (drainLoop rest s1 n).2.1,
       Ev.replayAttempt it.queueId false :: (drainLoop rest s1 n).2.2) := by
  conv_lhs => unfold drainLoop
  rw [hd]
  rfl

theorem drainLoop_success_removed (items : List QueueItem) (s : St) (n : Nat) (q : Nat)
    (hev : Ev.replayAttempt q true ∈ (drainLoop items s n).2.2) :
    q ∉ (((drainLoop items s n).2.1).loc.sync_queue.map QueueItem.queueId) := by
  induction items generalizing s n with
  | nil => simp [drainLoop] at hev
  | cons it rest ih =>
      rcases hd : dispatch it s with ⟨ok, s1⟩
      cases ok
      · rw [drainLoop_cons_failure rest n hd] at hev ⊢
        simp only [List.mem_cons] at hev
        rcases hev with hev | hev
        · simp at hev
        · exact ih s1 n hev
      · rw [drainLoop_cons_success rest n hd] at hev ⊢
        simp only [List.mem_cons] at hev
        rcases hev with hev | hev
        · have hq : q = it.queueId := by
            injection hev with h1 h2
          subst hq
          intro hfin
          have hsl := drainLoop_sublist rest (delQ s1 it.queueId) (n + 1)
          have hmm := (hsl.map QueueItem.queueId).subset hfin
          simp only [delQ] at hmm
          exact not_mem_map_delRow QueueItem.queueId s1.loc.sync_queue it.queueId hmm
        · exact ih (delQ s1 it.queueId) (n + 1) hev

theorem drainLoop_failure_remains (items : List QueueItem) (s : St) (n : Nat)
    (hind : (items.map QueueItem.queueId).Nodup)
    (item : QueueItem) (hin : item ∈ s.loc.sync_queue)
    (hev : Ev.replayAttempt item.queueId false ∈ (drainLoop items s n).2.2) :
    item ∈ ((drainLoop items s n).2.1).loc.sync_queue := by
  induction items generalizing s n with
  | nil => simp [drainLoop] at hev
  | cons it rest ih =>
      rcases hd : dispatch it s with ⟨ok, s1⟩
      have hq : s1.loc.sync_queue = s.loc.sync_queue := by
        have h := dispatch_queue it s
        rw [hd] at h
        exact h
      simp only [List.map_cons, List.nodup_cons] at hind
      cases ok
      · rw [drainLoop_cons_failure rest n hd] at hev ⊢
        simp only [List.mem_cons] at hev
        rcases hev with hev | hev
        · have hqq : item.queueId = it.queueId := by
            injection hev with h1 h2
          exact drainLoop_preserves_other rest s1 n item (hq ▸ hin)
            (by rw [hqq]; exact hind.1)
        · exact ih s1 n hind.2 (hq ▸ hin) hev
      · rw [drainLoop_cons_success rest n hd] at hev ⊢
        simp only [List.mem_cons] at hev
        rcases hev with hev | hev
        · simp at hev
        · have hne : item.queueId ≠ it.queueId := by
            intro heq
            have hmem := mem_attemptIds_of_event hev
            rw [drainLoop_attempts] at hmem
            exact hind.1 (heq ▸ hmem)
          have hin' : item ∈ (delQ s1 it.queueId).loc.sync_queue := by
            simp only [delQ]
            exact mem_delRow.mpr ⟨hq ▸ hin, hne⟩
          exact ih (delQ s1 it.queueId) (n + 1) hind.2 hin' hev

theorem seedOfflineDB_online_eq (s : St) (hon : s.online = true)
    (hok : s.rem.okList = []) :
    seedOfflineDB s = { s with loc := { s.loc with
      time_logs :=
        if (fetchedLogs s).isEmpty then delRow TimeLog.user_id s.loc.time_logs s.uid
        else bulkPut TimeLog.id (delRow TimeLog.user_id s.loc.time_logs s.uid) (fetchedLogs s),
      tasks :=
        if (fetchedTasks s).isEmpty then s.loc.tasks
        else bulkPut Task.id
          (s.loc.tasks.filter (fun t => decide (t.log_id ∉ (fetchedTasks s).map Task.log_id)))
          (fetchedTasks s),
      photos :=
        if (fetchedPhotos s).isEmpty then s.loc.photos
        else bulkPut Photo.id
          (s.loc.photos.filter (fun p => decide (p.log_id ∉ (fetchedPhotos s).map Photo.log_id)))
          (fetchedPhotos s),
      settings :=
        match s.rem.settings.find? (fun x => decide (x.user_id = s.uid)) with
        | some st => putRow Settings.id s.loc.settings st
        | none => s.loc.settings } } := by
  unfold seedOfflineDB remSelectLogs remSelectTasks remSelectPhotos remSelectSettings popOk
  rcases hfind : s.rem.settings.find? (fun x => decide (x.user_id = s.uid)) with _ | st
  all_goals simp [hok, hon, hfind, fetchedLogs, fetchedTasks, fetchedPhotos]

theorem uploadPhoto_offline_eq (logId : Key) (f : FileArg) (s : St)
    (hoff : s.online = false) :
    uploadPhoto logId f s =
      (⟨Key.lgen s.gen, logId, fileToBase64 f, s.now, none, none⟩,
       { s with
         loc := { s.loc with
           photos := putRow Photo.id s.loc.photos
             ⟨Key.lgen s.gen, logId, fileToBase64 f, s.now,
              some (fileToBase64 f), some f.name⟩,
           sync_queue := s.loc.sync_queue ++
             [⟨s.loc.nextQueueId, Table.photos, Action.insert, Key.lgen s.gen,
               some (Payload.photoIns logId f.name), s.now⟩],
           nextQueueId := s.loc.nextQueueId + 1 },
         gen := s.gen + 1, now := s.now + 1 },
       [Ev.localWrite Table.photos]) := by
  unfold uploadPhoto uploadPhotoOffline tick uuid enqueue
  simp [hoff]

theorem syncPhoto_insert_eq (e : QueueItem) (lg : Key) (fn : String) (u : St)
    (row : Photo) (b : String)
    (hact : e.action = Action.insert)
    (hpl : e.payload = some (Payload.photoIns lg fn))
    (hfind : u.loc.photos.find? (fun p => decide (p.id = e.rowId)) = some row)
    (hblob : row.offline_blob = some b)
    (hok : u.rem.okList = [])
    (hst : mkPath u.uid lg u.now fn ∉ u.rem.storage) :
    syncPhoto e u = (true,
      { u with
        loc := { u.loc with photos := (putRow Photo.id (delRow Photo.id u.loc.photos e.rowId)
          (⟨Key.srv u.rem.nextId, lg, pubUrl (mkPath u.uid lg u.now fn), u.rem.clock,
            none, none⟩ : Photo)) },
        rem := { u.rem with
          photos := (u.rem.photos ++
            [(⟨Key.srv u.rem.nextId, lg, pubUrl (mkPath u.uid lg u.now fn), u.rem.clock,
               none, none⟩ : Photo)]),
          storage := u.rem.storage ++ [mkPath u.uid lg u.now fn],
          nextId := u.rem.nextId + 1, clock := u.rem.clock + 1 },
        now := u.now + 1 }) := by
  have hst' : u.rem.storage.contains (mkPath u.uid lg u.now fn) = false := by
    simpa using hst
  unfold syncPhoto tick stUpload remInsertPhoto popOk
  simp [hact, hpl, hfind, hblob, hok, hst', hst]

theorem upsertTimeLog_offline_new (arg : UpsertArg) (s : St)
    (hoff : s.online = false)
    (hfind : s.loc.time_logs.find?
      (fun t => decide (t.date = arg.date ∧ t.user_id = s.uid)) = none) :
    upsertTimeLog arg s =
      (⟨Key.lgen s.gen, arg.date, arg.time_in, arg.time_out, arg.hours_rendered, s.uid, s.now⟩,
       { s with
         loc := { s.loc with
           time_logs := putRow TimeLog.id s.loc.time_logs
             ⟨Key.lgen s.gen, arg.date, arg.time_in, arg.time_out, arg.hours_rendered,
              s.uid, s.now⟩,
           sync_queue := s.loc.sync_queue ++
             [⟨s.loc.nextQueueId, Table.time_logs, Action.upsert, Key.lgen s.gen,
               some (Payload.timeLogRow ⟨Key.lgen s.gen, arg.date, arg.time_in, arg.time_out,
                 arg.hours_rendered, s.uid, s.now⟩), s.now⟩],
           nextQueueId := s.loc.nextQueueId + 1 },
         gen := s.gen + 1, now := s.now + 1 },
       [Ev.localWrite Table.time_logs]) := by
  unfold upsertTimeLog tick uuid enqueue
  simp only [Bool.decide_and] at hfind
  simp [hoff, hfind]

theorem upsertTimeLog_offline_existing (arg : UpsertArg) (s : St) (t : TimeLog)
    (hoff : s.online = false)
    (hfind : s.loc.time_logs.find?
      (fun x => decide (x.date = arg.date ∧ x.user_id = s.uid)) = some t) :
    upsertTimeLog arg s =
      (⟨t.id, arg.date, arg.time_in, arg.time_out, arg.hours_rendered, s.uid, t.created_at⟩,
       { s with
         loc := { s.loc with
           time_logs := putRow TimeLog.id s.loc.time_logs
             ⟨t.id, arg.date, arg.time_in, arg.time_out, arg.hours_rendered,
              s.uid, t.created_at⟩,
           sync_queue := s.loc.sync_queue ++
             [⟨s.loc.nextQueueId, Table.time_logs, Action.upsert, t.id,
               some (Payload.timeLogRow ⟨t.id, arg.date, arg.time_in, arg.time_out,
                 arg.hours_rendered, s.uid, t.created_at⟩), s.now⟩],
           nextQueueId := s.loc.nextQueueId + 1 },
         now := s.now + 1 },
       [Ev.localWrite Table.time_logs]) := by
  unfold upsertTimeLog tick uuid enqueue
  simp only [Bool.decide_and] at hfind
  simp [hoff, hfind]

theorem syncTimeLog_upsert_new (e : QueueItem) (row : TimeLog) (u : St)
    (hact : e.action = Action.upsert)
    (hpl : e.payload = some (Payload.timeLogRow row))
    (huser : row.user_id = u.uid)
    (hok : u.rem.okList = [])
    (hfind : u.rem.time_logs.find?
      (fun t => decide (t.date = row.date ∧ t.user_id = row.user_id)) = none)
    (hid : row.id = e.rowId) :
    syncTimeLog e u =
      (true, { u with rem := { u.rem with time_logs := u.rem.time_logs ++ [row] } }) := by
  have hrow : ({ row with user_id := u.uid } : TimeLog) = row := by
    rw [← huser]
  unfold syncTimeLog
  simp only [hact, hpl]
  rw [hrow]
  unfold remUpsertTimeLog popOk
  simp only [Bool.decide_and] at hfind
  simp [hok, hfind, hid]

theorem syncTimeLog_upsert_conflict (e : QueueItem) (row t : TimeLog) (u : St)
    (hact : e.action = Action.upsert)
    (hpl : e.payload = some (Payload.timeLogRow row))
    (huser : row.user_id = u.uid)
    (hok : u.rem.okList = [])
    (hfind : u.rem.time_logs.find?
      (fun x => decide (x.date = row.date ∧ x.user_id = row.user_id)) = some t)
    (hid : t.id = e.rowId) :
    syncTimeLog e u =
      (true, { u with rem := { u.rem with time_logs := (u.rem.time_logs.map
        (fun x => if x.id = t.id then { row with id := t.id } else x)) } }) := by
  have hrow : ({ row with user_id := u.uid } : TimeLog) = row := by
    rw [← huser]
  unfold syncTimeLog
  simp only [hact, hpl]
  rw [hrow]
  unfold remUpsertTimeLog popOk
  simp only [Bool.decide_and] at hfind
  simp [hok, hfind, hid]

theorem gsRun_refines_getSettings (s : St) :
    gsRun 4 (GsPC.start, s) = (GsPC.done (getSettings s).1, (getSettings s).2.1) := by
  obtain ⟨loc, rem, online, uid, gen, now⟩ := s
  cases online
  · rcases h2 : loc.settings.find? (fun x => decide (x.user_id = uid)) with _ | cached
    · have e1 : gsStep GsPC.start (⟨loc, rem, false, uid, gen, now⟩ : St)
          = (GsPC.localGet, (⟨loc, rem, false, uid, gen, now⟩ : St)) := by
        unfold gsStep
        dsimp only
        rfl
      have e2 : gsStep GsPC.localGet (⟨loc, rem, false, uid, gen, now⟩ : St)
          = (GsPC.putLocalDefault, (⟨loc, rem, false, uid, gen, now⟩ : St)) := by
        unfold gsStep
        dsimp only
        rw [h2]
        try rfl
      have eg : getSettings (⟨loc, rem, false, uid, gen, now⟩ : St)
          = ((⟨Key.lgen gen, uid, 600, "green", "light"⟩ : Settings),
             (⟨{ loc with settings := (putRow Settings.id loc.settings
                  (⟨Key.lgen gen, uid, 600, "green", "light"⟩ : Settings)) },
               rem, false, uid, gen + 1, now⟩ : St),
             [Ev.localWrite Table.settings]) := by
        unfold getSettings getSettingsOffline uuid
        dsimp only
        rw [h2]
        try rfl
      simp [gsRun, gsStep, uuid, e1, e2, eg, h2]
    · have eg : getSettings (⟨loc, rem, false, uid, gen, now⟩ : St)
          = (cached, (⟨loc, rem, false, uid, gen, now⟩ : St), []) := by
        unfold getSettings getSettingsOffline uuid
        dsimp only
        rw [h2]
        try rfl
      simp [gsRun, gsStep, uuid, eg, h2]
  · rcases h1 : remSelectSettings rem uid with ⟨res, rem1⟩
    rcases res with _ | op
    · have e1 : gsStep GsPC.start (⟨loc, rem, true, uid, gen, now⟩ : St)
          = (GsPC.localGet, (⟨loc, rem1, true, uid, gen, now⟩ : St)) := by
        unfold gsStep
        dsimp only
        rw [h1]
        try rfl
      rcases h2 : loc.settings.find? (fun x => decide (x.user_id = uid)) with _ | cached
      · have e2 : gsStep GsPC.localGet (⟨loc, rem1, true, uid, gen, now⟩ : St)
            = (GsPC.putLocalDefault, (⟨loc, rem1, true, uid, gen, now⟩ : St)) := by
          unfold gsStep
          dsimp only
          rw [h2]
          try rfl
        have eg : getSettings (⟨loc, rem, true, uid, gen, now⟩ : St)
            = ((⟨Key.lgen gen, uid, 600, "green", "light"⟩ : Settings),
               (⟨{ loc with settings := (putRow Settings.id loc.settings
                    (⟨Key.lgen gen, uid, 600, "green", "light"⟩ : Settings)) },
                 rem1, true, uid, gen + 1, now⟩ : St),
               [Ev.localWrite Table.settings]) := by
          unfold getSettings getSettingsOffline uuid
          dsimp only
          rw [h1]
          dsimp only
          rw [h2]
          try rfl
        rw [eg]
        show gsRun 3 (gsStep GsPC.start (⟨loc, rem, true, uid, gen, now⟩ : St)) = _
        rw [e1]
        show gsRun 2 (gsStep GsPC.localGet (⟨loc, rem1, true, uid, gen, now⟩ : St)) = _
        rw [e2]
        rfl
      · have e2 : gsStep GsPC.localGet (⟨loc, rem1, true, uid, gen, now⟩ : St)
            = (GsPC.done cached, (⟨loc, rem1, true, uid, gen, now⟩ : St)) := by
          unfold gsStep
          dsimp only
          rw [h2]
          try rfl
        have eg : getSettings (⟨loc, rem, true, uid, gen, now⟩ : St)
            = (cached, (⟨loc, rem1, true, uid, gen, now⟩ : St), []) := by
          unfold getSettings getSettingsOffline uuid
          dsimp only
          rw [h1]
          dsimp only
          rw [h2]
          try rfl
        rw [eg]
        show gsRun 3 (gsStep GsPC.start (⟨loc, rem, true, uid, gen, now⟩ : St)) = _
        rw [e1]
        show gsRun 2 (gsStep GsPC.localGet (⟨loc, rem1, true, uid, gen, now⟩ : St)) = _
        rw [e2]
        rfl
    · rcases op with _ | row
      · have e1 : gsStep GsPC.start (⟨loc, rem, true, uid, gen, now⟩ : St)
            = (GsPC.insDefault, (⟨loc, rem1, true, uid, gen, now⟩ : St)) := by
          unfold gsStep
          dsimp only
          rw [h1]
          try rfl
        rcases h2 : remInsertSettings rem1 uid with ⟨res2, rem2⟩
        rcases res2 with _ | newRow
        · have e2 : gsStep GsPC.insDefault (⟨loc, rem1, true, uid, gen, now⟩ : St)
              = (GsPC.localGet, (⟨loc, rem2, true, uid, gen, now⟩ : St)) := by
            unfold gsStep
            dsimp only
            rw [h2]
            try rfl
          rcases h3 : loc.settings.find? (fun x => decide (x.user_id = uid)) with _ | cached
          · have e3 : gsStep GsPC.localGet (⟨loc, rem2, true, uid, gen, now⟩ : St)
                = (GsPC.putLocalDefault, (⟨loc, rem2, true, uid, gen, now⟩ : St)) := by
              unfold gsStep
              dsimp only
              rw [h3]
              try rfl
            have eg : getSettings (⟨loc, rem, true, uid, gen, now⟩ : St)
                = ((⟨Key.lgen gen, uid, 600, "green", "light"⟩ : Settings),
                   (⟨{ loc with settings := (putRow Settings.id loc.settings
                        (⟨Key.lgen gen, uid, 600, "green", "light"⟩ : Settings)) },
                     rem2, true, uid, gen + 1, now⟩ : St),
                   [Ev.remoteWrite Table.settings, Ev.localWrite Table.settings]) := by
              unfold getSettings getSettingsOffline uuid
              dsimp only
              rw [h1]
              dsimp only
              rw [h2]
              dsimp only
              rw [h3]
              try rfl
            rw [eg]
            show gsRun 3 (gsStep GsPC.start (⟨loc, rem, true, uid, gen, now⟩ : St)) = _
            rw [e1]
            show gsRun 2 (gsStep GsPC.insDefault (⟨loc, rem1, true, uid, gen, now⟩ : St)) = _
            rw [e2]
            show gsRun 1 (gsStep GsPC.localGet (⟨loc, rem2, true, uid, gen, now⟩ : St)) = _
            rw [e3]
            rfl
          · have e3 : gsStep GsPC.localGet (⟨loc, rem2, true, uid, gen, now⟩ : St)
                = (GsPC.done cached, (⟨loc, rem2, true, uid, gen, now⟩ : St)) := by
              unfold gsStep
              dsimp only
              rw [h3]
              try rfl
            have eg : getSettings (⟨loc, rem, true, uid, gen, now⟩ : St)
                = (cached, (⟨loc, rem2, true, uid, gen, now⟩ : St),
                   [Ev.remoteWrite Table.settings]) := by
              unfold getSettings getSettingsOffline uuid
              dsimp only
              rw [h1]
              dsimp only
              rw [h2]
              dsimp only
              rw [h3]
              try rfl
            rw [eg]
            show gsRun 3 (gsStep GsPC.start (⟨loc, rem, true, uid, gen, now⟩ : St)) = _
            rw [e1]
            show gsRun 2 (gsStep GsPC.insDefault (⟨loc, rem1, true, uid, gen, now⟩ : St)) = _
            rw [e2]
            show gsRun 1 (gsStep GsPC.localGet (⟨loc, rem2, true, uid, gen, now⟩ : St)) = _
            rw [e3]
            rfl
        · have e2 : gsStep GsPC.insDefault (⟨loc, rem1, true, uid, gen, now⟩ : St)
              = (GsPC.putRemote newRow, (⟨loc, rem2, true, uid, gen, now⟩ : St)) := by
            unfold gsStep
            dsimp only
            rw [h2]
            try rfl
          have eg : getSettings (⟨loc, rem, true, uid, gen, now⟩ : St)
              = (newRow,
                 (⟨{ loc with settings := (putRow Settings.id loc.settings newRow) },
                   rem2, true, uid, gen, now⟩ : St),
                 [Ev.remoteWrite Table.settings, Ev.localWrite Table.settings]) := by
            unfold getSettings getSettingsOffline uuid
            dsimp only
            rw [h1]
            dsimp only
            rw [h2]
            try rfl
          rw [eg]
          show gsRun 3 (gsStep GsPC.start (⟨loc, rem, true, uid, gen, now⟩ : St)) = _
          rw [e1]
          show gsRun 2 (gsStep GsPC.insDefault (⟨loc, rem1, true, uid, gen, now⟩ : St)) = _
          rw [e2]
          rfl
      · have e1 : gsStep GsPC.start (⟨loc, rem, true, uid, gen, now⟩ : St)
            = (GsPC.putRemote row, (⟨loc, rem1, true, uid, gen, now⟩ : St)) := by
          unfold gsStep
          dsimp only
          rw [h1]
          try rfl
        have eg : getSettings (⟨loc, rem, true, uid, gen, now⟩ : St)
            = (row,
               (⟨{ loc with settings := (putRow Settings.id loc.settings row) },
                 rem1, true, uid, gen, now⟩ : St),
               [Ev.localWrite Table.settings]) := by
          unfold getSettings getSettingsOffline uuid
          dsimp only
          rw [h1]
          try rfl
        rw [eg]
        show gsRun 3 (gsStep GsPC.start (⟨loc, rem, true, uid, gen, now⟩ : St)) = _
        rw [e1]
        rfl

/-- `find?` skips a prefix in which nothing matches. -/
theorem find_none_append {α : Type} {p : α → Bool} {l₁ l₂ : List α}
    (h : l₁.find? p = none) : (l₁ ++ l₂).find? p = l₂.find? p := by
  induction l₁ with
  | nil => rfl
  | cons a l ih =>
      simp only [List.find?] at h
      simp only [List.cons_append, List.find?]
      cases hp : p a with
      | true => rw [hp] at h; cases h
      | false =>
          rw [hp] at h
          exact ih h

/-- A successful gateway settings select returns the matching remote row. -/
theorem remSelectSettings_ok (r : RemoteDB) (u : String) (hok : r.okList = []) :
    remSelectSettings r u =
      (some (r.settings.find? (fun x => decide (x.user_id = u))), r) := by
  unfold remSelectSettings popOk
  rw [hok]
  simp

/-- A successful gateway settings insert for a fresh owner appends the
server-assigned default row. -/
theorem remInsertSettings_ok_new (r : RemoteDB) (u : String) (hok : r.okList = [])
    (hany : r.settings.any (fun x => decide (x.user_id = u)) = false) :
    remInsertSettings r u =
      (some (⟨Key.srv r.nextId, u, 600, "green", "light"⟩ : Settings),
       { r with settings := (r.settings ++
                  [(⟨Key.srv r.nextId, u, 600, "green", "light"⟩ : Settings)]),
                nextId := r.nextId + 1 }) := by
  unfold remInsertSettings popOk
  rw [hok]
  simp [hany]
  try exact hok

/-- `getSettings` offline with no cached row synthesizes a local default. -/
theorem getSettings_offline_new (s : St) (hon : s.online = false)
    (hf : s.loc.settings.find? (fun x => decide (x.user_id = s.uid)) = none) :
    getSettings s =
      ((⟨Key.lgen s.gen, s.uid, 600, "green", "light"⟩ : Settings),
       { s with
         loc := { s.loc with settings := (putRow Settings.id s.loc.settings
              (⟨Key.lgen s.gen, s.uid, 600, "green", "light"⟩ : Settings)) },
         gen := s.gen + 1 },
       [Ev.localWrite Table.settings]) := by
  obtain ⟨loc, rem, online, uid, gen, now⟩ := s
  dsimp only at hon hf
  subst hon
  unfold getSettings getSettingsOffline uuid
  dsimp only
  rw [hf]
  try rfl

/-- `getSettings` offline with a cached row returns it unchanged. -/
theorem getSettings_offline_cached (s : St) (c : Settings) (hon : s.online = false)
    (hf : s.loc.settings.find? (fun x => decide (x.user_id = s.uid)) = some c) :
    getSettings s = (c, s, []) := by
  obtain ⟨loc, rem, online, uid, gen, now⟩ := s
  dsimp only at hon hf
  subst hon
  unfold getSettings getSettingsOffline uuid
  dsimp only
  rw [hf]
  try rfl

/-- `getSettings` online, when the remote row exists and the gateway call
succeeds, caches the remote row locally. -/
theorem getSettings_online_found (s : St) (d : Settings) (hon : s.online = true)
    (hok : s.rem.okList = [])
    (hf : s.rem.settings.find? (fun x => decide (x.user_id = s.uid)) = some d) :
    getSettings s =
      (d, { s with loc := { s.loc with settings := (putRow Settings.id s.loc.settings d) } },
       [Ev.localWrite Table.settings]) := by
  obtain ⟨loc, rem, online, uid, gen, now⟩ := s
  dsimp only at hon hok hf
  subst hon
  unfold getSettings remSelectSettings popOk
  dsimp only
  rw [hok]
  try dsimp only
  rw [hf]
  try rfl

/-- `getSettings` online, when no remote row exists and the gateway calls
succeed, inserts the remote default and caches it locally. -/
theorem getSettings_online_insert (s : St) (hon : s.online = true)
    (hok : s.rem.okList = [])
    (hnone : ∀ x ∈ s.rem.settings, x.user_id ≠ s.uid) :
    getSettings s =
      ((⟨Key.srv s.rem.nextId, s.uid, 600, "green", "light"⟩ : Settings),
       { s with
         loc := { s.loc with settings := (putRow Settings.id s.loc.settings
              (⟨Key.srv s.rem.nextId, s.uid, 600, "green", "light"⟩ : Settings)) },
         rem := { s.rem with
           settings := (s.rem.settings ++
              [(⟨Key.srv s.rem.nextId, s.uid, 600, "green", "light"⟩ : Settings)]),
           nextId := s.rem.nextId + 1 } },
       [Ev.remoteWrite Table.settings, Ev.localWrite Table.settings]) := by
  have hf : s.rem.settings.find? (fun x => decide (x.user_id = s.uid)) = none := by
    rw [List.find?_eq_none]
    intro x hx
    simpa using hnone x hx
  have hany : s.rem.settings.any (fun x => decide (x.user_id = s.uid)) = false := by
    rw [List.any_eq_false]
    intro x hx
    simpa using hnone x hx
  obtain ⟨loc, rem, online, uid, gen, now⟩ := s
  dsimp only at hon hok hf hany
  subst hon
  unfold getSettings
  dsimp only
  rw [remSelectSettings_ok rem uid hok]
  dsimp only
  rw [hf]
  try dsimp only
  rw [remInsertSettings_ok_new rem uid hok hany]
  try dsimp only
  try rfl

/-! ## Claim theorems -/

/-- C10: `updateTask(id, description)` throws "Task not found" whenever no
row with that id exists in the local mirror, and in that case performs no
mutation at all: the local mirror, the mutation queue and the remote store
are all left unchanged. -/
theorem updateTask_absent_throws_and_mutates_nothing (i : Key) (d : String) (s : St)
    (h : ∀ t ∈ s.loc.tasks, t.id ≠ i) :
    updateTask i d s = (Except.error "Task not found", s, []) := by
  have hf : s.loc.tasks.find? (fun t => decide (t.id = i)) = none := by
    rw [List.find?_eq_none]
    intro t ht
    simpa using h t ht
  unfold updateTask
  rw [hf]

/-- Witness for C10 at a concrete state. -/
theorem updateTask_absent_witness :
    updateTask (Key.lgen 3) "y"
      ⟨⟨[], [⟨Key.lgen 0, Key.lgen 1, "x", 0⟩], [], [], [], 0⟩, emptyRem, true, "u1", 5, 7⟩ =
    (Except.error "Task not found",
      ⟨⟨[], [⟨Key.lgen 0, Key.lgen 1, "x", 0⟩], [], [], [], 0⟩, emptyRem, true, "u1", 5, 7⟩, []) :=
  updateTask_absent_throws_and_mutates_nothing (Key.lgen 3) "y" _ (by decide)

/-- C2: when a queued TimeEntry upsert is replayed by `syncTimeLog` and the
remote upsert returns an id different from the queued speculative id, the
handler succeeds and afterwards the local mirror has no time-log row under
the old id, stores the remote-confirmed row, and has rewritten every task
and photo row that referenced the old id to the new id, leaving no row
referencing the old id. -/
theorem syncTimeLog_id_reconciliation (item : QueueItem) (row data : TimeLog) (s : St)
    (hact : item.action = Action.upsert)
    (hpl : item.payload = some (Payload.timeLogRow row))
    (hres : (remUpsertTimeLog s.rem { row with user_id := s.uid }).1 = some data)
    (hne : data.id ≠ item.rowId) :
    (syncTimeLog item s).1 = true ∧
    (∀ t ∈ (syncTimeLog item s).2.loc.time_logs, t.id ≠ item.rowId) ∧
    data ∈ (syncTimeLog item s).2.loc.time_logs ∧
    (∀ t ∈ s.loc.tasks, t.log_id = item.rowId →
       { t with log_id := data.id } ∈ (syncTimeLog item s).2.loc.tasks) ∧
    (∀ t ∈ (syncTimeLog item s).2.loc.tasks, t.log_id ≠ item.rowId) ∧
    (∀ p ∈ s.loc.photos, p.log_id = item.rowId →
       { p with log_id := data.id } ∈ (syncTimeLog item s).2.loc.photos) ∧
    (∀ p ∈ (syncTimeLog item s).2.loc.photos, p.log_id ≠ item.rowId) := by
  rcases hcall : remUpsertTimeLog s.rem { row with user_id := s.uid } with ⟨res, rem2⟩
  rw [hcall] at hres
  simp only at hres
  subst hres
  simp only [syncTimeLog, hact, hpl, hcall, hne, if_true, ne_eq, not_false_iff, ite_true]
  refine ⟨trivial, ?_, ?_, ?_, ?_, ?_, ?_⟩
  · intro t ht
    rcases mem_putRow ht with h | h
    · rw [h]; exact hne
    · exact (mem_delRow.mp h).2
  · exact self_mem_putRow _ _ _
  · intro t ht heq
    refine List.mem_map.mpr ⟨t, ht, ?_⟩
    rw [if_pos heq]
  · intro t ht
    obtain ⟨z, hz, hzt⟩ := List.mem_map.mp ht
    by_cases hk : z.log_id = item.rowId
    · rw [if_pos hk] at hzt
      rw [← hzt]
      exact hne
    · rw [if_neg hk] at hzt
      rw [← hzt]
      exact hk
  · intro p hp heq
    refine List.mem_map.mpr ⟨p, hp, ?_⟩
    rw [if_pos heq]
  · intro p hp
    obtain ⟨z, hz, hzp⟩ := List.mem_map.mp hp
    by_cases hk : z.log_id = item.rowId
    · rw [if_pos hk] at hzp
      rw [← hzp]
      exact hne
    · rw [if_neg hk] at hzp
      rw [← hzp]
      exact hk

/-- C5 (amended): `upsertTimeLog`, `createTask`, `updateTask` (when the task
exists), `deleteTask` and `deletePhoto` each apply their change to the local
mirror as their very first store access — before any remote attempt — for
every state, connectivity value and remote outcome. -/
theorem writes_commit_locally_before_remote :
    (∀ arg s, ((upsertTimeLog arg s).2.2).head? = some (Ev.localWrite Table.time_logs)) ∧
    (∀ lg d s, ((createTask lg d s).2.2).head? = some (Ev.localWrite Table.tasks)) ∧
    (∀ i d s, (∃ t ∈ s.loc.tasks, t.id = i) →
       ((updateTask i d s).2.2).head? = some (Ev.localWrite Table.tasks)) ∧
    (∀ i s, ((deleteTask i s).2).head? = some (Ev.localWrite Table.tasks)) ∧
    (∀ p s, ((deletePhoto p s).2).head? = some (Ev.localWrite Table.photos)) := by
  refine ⟨?_, ?_, ?_, ?_, ?_⟩
  · intro arg s
    simp only [upsertTimeLog, tick, uuid]
    rcases hf : List.find? (fun t => decide (t.date = arg.date ∧ t.user_id = s.uid))
        s.loc.time_logs with _ | t
    all_goals simp only [hf]
    all_goals repeat' split
    all_goals simp
  · intro lg d s
    simp only [createTask, tick, uuid]
    repeat' split
    all_goals simp
  · intro i d s h
    have hs : (s.loc.tasks.find? (fun t => decide (t.id = i))).isSome := by
      rw [List.find?_isSome]
      obtain ⟨t, ht, hti⟩ := h
      exact ⟨t, ht, by simpa using hti⟩
    obtain ⟨t, hfind⟩ := Option.isSome_iff_exists.mp hs
    unfold updateTask
    rw [hfind]
    by_cases ho : s.online = true
    · rcases hr : (remUpdateTask s.rem i d).1 with _ | data
      all_goals simp [ho, hr, enqueue, tick]
    · simp [ho, enqueue, tick]
  · intro i s
    unfold deleteTask
    by_cases ho : s.online = true
    all_goals simp [ho, enqueue, tick]
  · intro p s
    unfold deletePhoto
    by_cases ho : s.online = true
    all_goals rcases hp : parseStoragePath p.image_url with _ | path
    all_goals simp [ho, hp, enqueue, tick]

/-- Counterexample to C5 as stated: `uploadPhoto` when online attempts the
storage upload before any local-mirror write, and `updateSettings` (via its
`getSettings` fetch-or-create) can insert a default settings row remotely
before its local write. -/
theorem uploadPhoto_remote_before_local :
    localFirst (uploadPhoto (Key.lgen 9) ⟨"pic.jpg", "B"⟩ (freshSt true)).2.2 = false ∧
    localFirst (updateSettings 500 (freshSt true)).2.2 = false := by
  constructor <;> rfl

/-- Witness for C5 (the `updateTask` conjunct has a hypothesis): at a state
holding task `lgen 0`, `updateTask`'s first store event is the local write. -/
theorem writes_commit_locally_before_remote_witness :
    ((updateTask (Key.lgen 0) "y"
       ⟨⟨[], [⟨Key.lgen 0, Key.lgen 1, "x", 0⟩], [], [], [], 0⟩, emptyRem, true, "u1", 5, 7⟩).2.2).head? =
      some (Ev.localWrite Table.tasks) :=
  writes_commit_locally_before_remote.2.2.1 (Key.lgen 0) "y" _
    ⟨⟨Key.lgen 0, Key.lgen 1, "x", 0⟩, by decide, rfl⟩

/-- C4: `processSyncQueue` replays the queue entries in strictly ascending
`queueId` order, each exactly once (the attempted ids are a permutation of
the queued ids), and returns the count of successfully replayed entries
(success count plus remaining queue length equals the original queue
length); while offline it attempts no operation, changes nothing and
returns 0. Replay is one entry at a time by construction of the sequential
drain loop. -/
theorem processSyncQueue_order_and_count (s : St)
    (hnd : (s.loc.sync_queue.map QueueItem.queueId).Nodup) :
    (s.online = false → processSyncQueue s = (0, s, [])) ∧
    (s.online = true →
      List.Sorted (· < ·) (attemptIds (processSyncQueue s).2.2) ∧
      (attemptIds (processSyncQueue s).2.2).Perm
        (s.loc.sync_queue.map QueueItem.queueId) ∧
      (processSyncQueue s).1 + ((processSyncQueue s).2.1).loc.sync_queue.length
        = s.loc.sync_queue.length) := by
  constructor
  · intro hoff
    simp [processSyncQueue, hoff]
  · intro hon
    have hperm : (List.insertionSort (fun a b => a.queueId ≤ b.queueId)
        s.loc.sync_queue).Perm s.loc.sync_queue := List.perm_insertionSort _ _
    have hpermmap := hperm.map QueueItem.queueId
    have hindnd : ((List.insertionSort (fun a b => a.queueId ≤ b.queueId)
        s.loc.sync_queue).map QueueItem.queueId).Nodup := hpermmap.nodup_iff.mpr hnd
    have hsorted : List.Sorted (· ≤ ·)
        ((List.insertionSort (fun a b => a.queueId ≤ b.queueId)
          s.loc.sync_queue).map QueueItem.queueId) := by
      exact List.pairwise_map.mpr (List.sorted_insertionSort _ _)
    simp only [processSyncQueue, hon, Bool.not_true, Bool.false_eq_true, if_false]
    by_cases hemp : (List.insertionSort (fun a b => a.queueId ≤ b.queueId)
        s.loc.sync_queue).isEmpty
    · have hq : s.loc.sync_queue = [] := by
        rw [List.isEmpty_iff] at hemp
        have := hperm.symm
        rw [hemp] at this
        exact List.Perm.eq_nil this
      simp [hemp, hq, attemptIds]
    · simp only [hemp, Bool.false_eq_true, if_false]
      refine ⟨?_, ?_, ?_⟩
      · rw [drainLoop_attempts]
        exact hsorted.lt_of_le hindnd
      · rw [drainLoop_attempts]
        exact hpermmap
      · have hc := drainLoop_count
          (List.insertionSort (fun a b => a.queueId ≤ b.queueId) s.loc.sync_queue) s 0
          hnd (fun i hi => List.mem_map_of_mem _ (hperm.subset hi)) hindnd
        simpa using hc

/-- Witness for C4 at the concrete two-entry state `c4st`. -/
theorem processSyncQueue_order_and_count_witness :
    (c4st.online = false → processSyncQueue c4st = (0, c4st, [])) ∧
    (c4st.online = true →
      List.Sorted (· < ·) (attemptIds (processSyncQueue c4st).2.2) ∧
      (attemptIds (processSyncQueue c4st).2.2).Perm
        (c4st.loc.sync_queue.map QueueItem.queueId) ∧
      (processSyncQueue c4st).1 + ((processSyncQueue c4st).2.1).loc.sync_queue.length
        = c4st.loc.sync_queue.length) :=
  processSyncQueue_order_and_count c4st (by decide)

/-- C6: during `processSyncQueue` every snapshot queue entry is attempted
(one entry failing never stops the batch): an entry whose handler succeeds
is deleted from the queue, an entry whose handler fails remains in the queue
untouched, and the remaining queue is a sublist of the original. -/
theorem processSyncQueue_commit_or_keep (s : St)
    (hon : s.online = true)
    (hnd : (s.loc.sync_queue.map QueueItem.queueId).Nodup) :
    (((processSyncQueue s).2.1).loc.sync_queue).Sublist s.loc.sync_queue ∧
    (∀ item ∈ s.loc.sync_queue,
       ∃ ok, Ev.replayAttempt item.queueId ok ∈ (processSyncQueue s).2.2) ∧
    (∀ q, Ev.replayAttempt q true ∈ (processSyncQueue s).2.2 →
       q ∉ ((processSyncQueue s).2.1).loc.sync_queue.map QueueItem.queueId) ∧
    (∀ item ∈ s.loc.sync_queue,
       Ev.replayAttempt item.queueId false ∈ (processSyncQueue s).2.2 →
       item ∈ ((processSyncQueue s).2.1).loc.sync_queue) := by
  have hperm : (List.insertionSort (fun a b => a.queueId ≤ b.queueId)
      s.loc.sync_queue).Perm s.loc.sync_queue := List.perm_insertionSort _ _
  have hpermmap := hperm.map QueueItem.queueId
  have hindnd : ((List.insertionSort (fun a b => a.queueId ≤ b.queueId)
      s.loc.sync_queue).map QueueItem.queueId).Nodup := hpermmap.nodup_iff.mpr hnd
  simp only [processSyncQueue, hon, Bool.not_true, Bool.false_eq_true, if_false]
  by_cases hemp : (List.insertionSort (fun a b => a.queueId ≤ b.queueId)
      s.loc.sync_queue).isEmpty
  · have hq : s.loc.sync_queue = [] := by
      rw [List.isEmpty_iff] at hemp
      have := hperm.symm
      rw [hemp] at this
      exact List.Perm.eq_nil this
    simp [hemp, hq]
  · simp only [hemp, Bool.false_eq_true, if_false]
    refine ⟨?_, ?_, ?_, ?_⟩
    · exact drainLoop_sublist _ s 0
    · intro item hitem
      have hmem : item.queueId ∈ attemptIds (drainLoop
          (List.insertionSort (fun a b => a.queueId ≤ b.queueId) s.loc.sync_queue) s 0).2.2 := by
        rw [drainLoop_attempts]
        exact hpermmap.symm.subset (List.mem_map_of_mem _ hitem)
      exact event_of_mem_attemptIds hmem
    · intro q hq
      exact drainLoop_success_removed _ s 0 q hq
    · intro item hitem hev
      exact drainLoop_failure_remains _ s 0 hindnd item hitem hev

/-- Witness for C6 at the concrete two-entry state `c4st`. -/
theorem processSyncQueue_commit_or_keep_witness :
    (((processSyncQueue c4st).2.1).loc.sync_queue).Sublist c4st.loc.sync_queue ∧
    (∀ item ∈ c4st.loc.sync_queue,
       ∃ ok, Ev.replayAttempt item.queueId ok ∈ (processSyncQueue c4st).2.2) ∧
    (∀ q, Ev.replayAttempt q true ∈ (processSyncQueue c4st).2.2 →
       q ∉ ((processSyncQueue c4st).2.1).loc.sync_queue.map QueueItem.queueId) ∧
    (∀ item ∈ c4st.loc.sync_queue,
       Ev.replayAttempt item.queueId false ∈ (processSyncQueue c4st).2.2 →
       item ∈ ((processSyncQueue c4st).2.1).loc.sync_queue) :=
  processSyncQueue_commit_or_keep c4st rfl (by decide)

/-- Counterexample to C7 as stated: seeding is not an atomic scoped replace
of all the owner's rows — here the fetch returns no tasks at all, yet the
owner's stale local task row survives seeding. -/
theorem seedOfflineDB_keeps_stale_owner_rows :
    (remSelectTasks c7st.rem c7st.uid).1 = some [] ∧
    c7stale ∈ (seedOfflineDB c7st).loc.tasks := by
  decide

/-- C7 (amended): `seedOfflineDB` is a no-op offline; online (with the
gateway healthy) it runs one transaction that replaces the owner's time
logs with the fetched ones, but for tasks and photos it deletes only rows
whose `log_id` occurs among the fetched rows' log ids — and nothing at all
when the fetch for that collection comes back empty — before putting the
fetched rows; a fetched settings row is put without any deletion. -/
theorem seedOfflineDB_partial_scoped_replace (s : St)
    (hok : s.rem.okList = [])
    (hndl : ((fetchedLogs s).map TimeLog.id).Nodup)
    (hndt : ((fetchedTasks s).map Task.id).Nodup)
    (hndp : ((fetchedPhotos s).map Photo.id).Nodup) :
    (s.online = false → seedOfflineDB s = s) ∧
    (s.online = true →
      (∀ l ∈ fetchedLogs s, l ∈ (seedOfflineDB s).loc.time_logs) ∧
      (∀ t ∈ s.loc.time_logs, t.user_id = s.uid →
         t ∈ (seedOfflineDB s).loc.time_logs → t ∈ fetchedLogs s) ∧
      (∀ t ∈ fetchedTasks s, t ∈ (seedOfflineDB s).loc.tasks) ∧
      (∀ t ∈ s.loc.tasks, t.log_id ∉ (fetchedTasks s).map Task.log_id →
         t.id ∉ (fetchedTasks s).map Task.id → t ∈ (seedOfflineDB s).loc.tasks) ∧
      (∀ p ∈ fetchedPhotos s, p ∈ (seedOfflineDB s).loc.photos) ∧
      (∀ p ∈ s.loc.photos, p.log_id ∉ (fetchedPhotos s).map Photo.log_id →
         p.id ∉ (fetchedPhotos s).map Photo.id → p ∈ (seedOfflineDB s).loc.photos) ∧
      (∀ st, s.rem.settings.find? (fun x => decide (x.user_id = s.uid)) = some st →
         st ∈ (seedOfflineDB s).loc.settings)) := by
  constructor
  · intro hoff
    simp [seedOfflineDB, hoff]
  · intro hon
    rw [seedOfflineDB_online_eq s hon hok]
    refine ⟨?_, ?_, ?_, ?_, ?_, ?_, ?_⟩
    · intro l hl
      simp only
      rw [if_neg (by simp [List.isEmpty_iff]; intro h; rw [h] at hl; cases hl)]
      exact mem_bulkPut_right hndl hl
    · intro t ht huid hseed
      by_cases hemp : (fetchedLogs s).isEmpty
      · simp only [if_pos hemp] at hseed
        exact absurd huid (mem_delRow.mp hseed).2
      · simp only [if_neg hemp] at hseed
        rcases mem_bulkPut hseed with h | h
        · exact absurd huid (mem_delRow.mp h).2
        · exact h
    · intro t ht
      simp only
      rw [if_neg (by simp [List.isEmpty_iff]; intro h; rw [h] at ht; cases ht)]
      exact mem_bulkPut_right hndt ht
    · intro t ht hlog hid
      by_cases hemp : (fetchedTasks s).isEmpty
      · simp only [if_pos hemp]
        exact ht
      · simp only [if_neg hemp]
        refine mem_bulkPut_left ?_ hid
        exact List.mem_filter.mpr ⟨ht, by simpa using hlog⟩
    · intro p hp
      simp only
      rw [if_neg (by simp [List.isEmpty_iff]; intro h; rw [h] at hp; cases hp)]
      exact mem_bulkPut_right hndp hp
    · intro p hp hlog hid
      by_cases hemp : (fetchedPhotos s).isEmpty
      · simp only [if_pos hemp]
        exact hp
      · simp only [if_neg hemp]
        refine mem_bulkPut_left ?_ hid
        exact List.mem_filter.mpr ⟨hp, by simpa using hlog⟩
    · intro st hst
      simp only [hst]
      exact self_mem_putRow _ _ _

/-- Witness for C7 at the concrete state `c7st`. -/
theorem seedOfflineDB_partial_scoped_replace_witness :
    (c7st.online = false → seedOfflineDB c7st = c7st) ∧
    (c7st.online = true →
      (∀ l ∈ fetchedLogs c7st, l ∈ (seedOfflineDB c7st).loc.time_logs) ∧
      (∀ t ∈ c7st.loc.time_logs, t.user_id = c7st.uid →
         t ∈ (seedOfflineDB c7st).loc.time_logs → t ∈ fetchedLogs c7st) ∧
      (∀ t ∈ fetchedTasks c7st, t ∈ (seedOfflineDB c7st).loc.tasks) ∧
      (∀ t ∈ c7st.loc.tasks, t.log_id ∉ (fetchedTasks c7st).map Task.log_id →
         t.id ∉ (fetchedTasks c7st).map Task.id → t ∈ (seedOfflineDB c7st).loc.tasks) ∧
      (∀ p ∈ fetchedPhotos c7st, p ∈ (seedOfflineDB c7st).loc.photos) ∧
      (∀ p ∈ c7st.loc.photos, p.log_id ∉ (fetchedPhotos c7st).map Photo.log_id →
         p.id ∉ (fetchedPhotos c7st).map Photo.id → p ∈ (seedOfflineDB c7st).loc.photos) ∧
      (∀ st, c7st.rem.settings.find? (fun x => decide (x.user_id = c7st.uid)) = some st →
         st ∈ (seedOfflineDB c7st).loc.settings)) :=
  seedOfflineDB_partial_scoped_replace c7st (by decide) (by decide) (by decide) (by decide)

/-- C8: uploading a photo while offline stores a local row whose image_url
is the base64 offline payload (also kept in offline_blob), and enqueues an
entry carrying only the log reference and the filename; after a successful
drain of that entry the queue is empty and the local row has been replaced
by the remote-confirmed row, whose image_url is a storage-hosted URL (an
extension of the public bucket base) and whose offline payload fields are
absent. -/
theorem uploadPhoto_offline_then_drain (logId : Key) (f : FileArg) (s : St)
    (hoff : s.online = false)
    (hq : s.loc.sync_queue = [])
    (hfresh : ∀ p ∈ s.loc.photos, p.id ≠ Key.lgen s.gen)
    (hok : s.rem.okList = [])
    (hst : mkPath s.uid logId (s.now + 1) f.name ∉ s.rem.storage) :
    (uploadPhoto logId f s).1 =
      ⟨Key.lgen s.gen, logId, fileToBase64 f, s.now, none, none⟩ ∧
    (⟨Key.lgen s.gen, logId, fileToBase64 f, s.now, some (fileToBase64 f), some f.name⟩ : Photo)
      ∈ ((uploadPhoto logId f s).2.1).loc.photos ∧
    ((uploadPhoto logId f s).2.1).loc.sync_queue =
      [⟨s.loc.nextQueueId, Table.photos, Action.insert, Key.lgen s.gen,
        some (Payload.photoIns logId f.name), s.now⟩] ∧
    (processSyncQueue { (uploadPhoto logId f s).2.1 with online := true }).1 = 1 ∧
    ((processSyncQueue { (uploadPhoto logId f s).2.1 with online := true }).2.1).loc.sync_queue
      = [] ∧
    (⟨Key.srv s.rem.nextId, logId, pubUrl (mkPath s.uid logId (s.now + 1) f.name),
      s.rem.clock, none, none⟩ : Photo)
      ∈ ((processSyncQueue { (uploadPhoto logId f s).2.1 with online := true }).2.1).loc.photos ∧
    pubUrl (mkPath s.uid logId (s.now + 1) f.name)
      = urlBase ++ mkPath s.uid logId (s.now + 1) f.name ∧
    (∀ p ∈ ((processSyncQueue { (uploadPhoto logId f s).2.1 with online := true }).2.1).loc.photos,
       p.id ≠ Key.lgen s.gen) := by
  have hup := uploadPhoto_offline_eq logId f s hoff
  have hany : (s.loc.photos.any (fun y => decide (y.id = Key.lgen s.gen))) = false := by
    rw [List.any_eq_false]
    intro p hp
    simpa using hfresh p hp
  have hput : putRow Photo.id s.loc.photos
      (⟨Key.lgen s.gen, logId, fileToBase64 f, s.now,
        some (fileToBase64 f), some f.name⟩ : Photo)
      = s.loc.photos ++
        [⟨Key.lgen s.gen, logId, fileToBase64 f, s.now,
          some (fileToBase64 f), some f.name⟩] := by
    unfold putRow
    rw [if_neg]
    simpa using hany
  have hs1 : ({ (uploadPhoto logId f s).2.1 with online := true } : St) =
      { s with
        loc := { s.loc with
          photos := s.loc.photos ++
            [⟨Key.lgen s.gen, logId, fileToBase64 f, s.now,
              some (fileToBase64 f), some f.name⟩],
          sync_queue := [⟨s.loc.nextQueueId, Table.photos, Action.insert, Key.lgen s.gen,
            some (Payload.photoIns logId f.name), s.now⟩],
          nextQueueId := s.loc.nextQueueId + 1 },
        online := true, gen := s.gen + 1, now := s.now + 1 } := by
    rw [hup]
    simp [hput, hq]
  have hfind : (s.loc.photos ++
      [(⟨Key.lgen s.gen, logId, fileToBase64 f, s.now,
         some (fileToBase64 f), some f.name⟩ : Photo)]).find?
        (fun p => decide (p.id = Key.lgen s.gen)) =
      some ⟨Key.lgen s.gen, logId, fileToBase64 f, s.now,
        some (fileToBase64 f), some f.name⟩ := by
    rw [List.find?_append]
    have h1 : s.loc.photos.find? (fun p => decide (p.id = Key.lgen s.gen)) = none := by
      rw [List.find?_eq_none]
      intro p hp
      simpa using hfresh p hp
    rw [h1]
    simp
  have hdisp := syncPhoto_insert_eq
    ⟨s.loc.nextQueueId, Table.photos, Action.insert, Key.lgen s.gen,
      some (Payload.photoIns logId f.name), s.now⟩ logId f.name
    ({ s with
        loc := { s.loc with
          photos := s.loc.photos ++
            [⟨Key.lgen s.gen, logId, fileToBase64 f, s.now,
              some (fileToBase64 f), some f.name⟩],
          sync_queue := [⟨s.loc.nextQueueId, Table.photos, Action.insert, Key.lgen s.gen,
            some (Payload.photoIns logId f.name), s.now⟩],
          nextQueueId := s.loc.nextQueueId + 1 },
        online := true, gen := s.gen + 1, now := s.now + 1 } : St)
    ⟨Key.lgen s.gen, logId, fileToBase64 f, s.now, some (fileToBase64 f), some f.name⟩
    (fileToBase64 f) rfl rfl hfind rfl hok hst
  have hdisp' : dispatch
      ⟨s.loc.nextQueueId, Table.photos, Action.insert, Key.lgen s.gen,
        some (Payload.photoIns logId f.name), s.now⟩
      ({ s with
          loc := { s.loc with
            photos := s.loc.photos ++
              [⟨Key.lgen s.gen, logId, fileToBase64 f, s.now,
                some (fileToBase64 f), some f.name⟩],
            sync_queue := [⟨s.loc.nextQueueId, Table.photos, Action.insert, Key.lgen s.gen,
              some (Payload.photoIns logId f.name), s.now⟩],
            nextQueueId := s.loc.nextQueueId + 1 },
          online := true, gen := s.gen + 1, now := s.now + 1 } : St) = _ := hdisp
  have hproc : processSyncQueue ({ (uploadPhoto logId f s).2.1 with online := true } : St) =
      (1, delQ ((dispatch
        ⟨s.loc.nextQueueId, Table.photos, Action.insert, Key.lgen s.gen,
          some (Payload.photoIns logId f.name), s.now⟩
        ({ s with
            loc := { s.loc with
              photos := s.loc.photos ++
                [⟨Key.lgen s.gen, logId, fileToBase64 f, s.now,
                  some (fileToBase64 f), some f.name⟩],
              sync_queue := [⟨s.loc.nextQueueId, Table.photos, Action.insert, Key.lgen s.gen,
                some (Payload.photoIns logId f.name), s.now⟩],
              nextQueueId := s.loc.nextQueueId + 1 },
            online := true, gen := s.gen + 1, now := s.now + 1 } : St)).2) s.loc.nextQueueId,
       [Ev.replayAttempt s.loc.nextQueueId true]) := by
    rw [hs1]
    unfold processSyncQueue
    simp only [Bool.not_true, Bool.false_eq_true, if_false, List.insertionSort,
      List.orderedInsert, List.isEmpty_cons]
    rw [drainLoop_cons_success [] 0 hdisp']
    simp [drainLoop, hdisp']
  refine ⟨?_, ?_, ?_, ?_, ?_, ?_, rfl, ?_⟩
  · rw [hup]
  · rw [hup]
    exact self_mem_putRow Photo.id s.loc.photos _
  · rw [hup]
    simp [hq]
  · rw [hproc]
  · rw [hproc]
    simp [hdisp', delQ, delRow]
  · rw [hproc]
    simp only [hdisp', delQ]
    exact self_mem_putRow Photo.id _ _
  · rw [hproc]
    simp only [hdisp', delQ]
    intro p hp
    rcases mem_putRow hp with h | h
    · rw [h]
      simp
    · exact (mem_delRow.mp h).2

/-- Witness for C8: a photo uploaded offline from the fresh state and then
drained. -/
theorem uploadPhoto_offline_then_drain_witness :
    (uploadPhoto (Key.lgen 9) ⟨"pic.jpg", "B"⟩ (freshSt false)).1 =
      ⟨Key.lgen 0, Key.lgen 9, fileToBase64 ⟨"pic.jpg", "B"⟩, 0, none, none⟩ ∧
    (⟨Key.lgen 0, Key.lgen 9, fileToBase64 ⟨"pic.jpg", "B"⟩, 0,
      some (fileToBase64 ⟨"pic.jpg", "B"⟩), some "pic.jpg"⟩ : Photo)
      ∈ ((uploadPhoto (Key.lgen 9) ⟨"pic.jpg", "B"⟩ (freshSt false)).2.1).loc.photos ∧
    ((uploadPhoto (Key.lgen 9) ⟨"pic.jpg", "B"⟩ (freshSt false)).2.1).loc.sync_queue =
      [⟨0, Table.photos, Action.insert, Key.lgen 0,
        some (Payload.photoIns (Key.lgen 9) "pic.jpg"), 0⟩] ∧
    (processSyncQueue { (uploadPhoto (Key.lgen 9) ⟨"pic.jpg", "B"⟩ (freshSt false)).2.1
      with online := true }).1 = 1 ∧
    ((processSyncQueue { (uploadPhoto (Key.lgen 9) ⟨"pic.jpg", "B"⟩ (freshSt false)).2.1
      with online := true }).2.1).loc.sync_queue = [] ∧
    (⟨Key.srv 0, Key.lgen 9, pubUrl (mkPath "u1" (Key.lgen 9) 1 "pic.jpg"), 0,
      none, none⟩ : Photo)
      ∈ ((processSyncQueue { (uploadPhoto (Key.lgen 9) ⟨"pic.jpg", "B"⟩ (freshSt false)).2.1
          with online := true }).2.1).loc.photos ∧
    pubUrl (mkPath "u1" (Key.lgen 9) 1 "pic.jpg")
      = urlBase ++ mkPath "u1" (Key.lgen 9) 1 "pic.jpg" ∧
    (∀ p ∈ ((processSyncQueue { (uploadPhoto (Key.lgen 9) ⟨"pic.jpg", "B"⟩ (freshSt false)).2.1
        with online := true }).2.1).loc.photos, p.id ≠ Key.lgen 0) :=
  uploadPhoto_offline_then_drain (Key.lgen 9) ⟨"pic.jpg", "B"⟩ (freshSt false)
    rfl rfl (by decide) rfl (by decide)

/-- C3: `upsertTimeLog` draws a fresh speculative id only when no local row
for the (date, owner) exists and reuses the existing local id otherwise;
upserting twice for the same (date, owner) while offline leaves exactly one
local row for that (date, owner), and after an accepted replay exactly one
remote row (and one local row) for it, with an empty queue. -/
theorem upsertTimeLog_same_day_once (arg1 arg2 : UpsertArg) (s : St)
    (hdate : arg2.date = arg1.date)
    (hoff : s.online = false)
    (hq : s.loc.sync_queue = [])
    (hnl : ∀ t ∈ s.loc.time_logs, ¬(t.date = arg1.date ∧ t.user_id = s.uid))
    (hfresh : ∀ t ∈ s.loc.time_logs, t.id ≠ Key.lgen s.gen)
    (hnr : ∀ t ∈ s.rem.time_logs, ¬(t.date = arg1.date ∧ t.user_id = s.uid))
    (hremfresh : ∀ t ∈ s.rem.time_logs, t.id ≠ Key.lgen s.gen)
    (hok : s.rem.okList = []) :
    (upsertTimeLog arg1 s).1.id = Key.lgen s.gen ∧
    (upsertTimeLog arg2 (upsertTimeLog arg1 s).2.1).1.id = Key.lgen s.gen ∧
    (upsertTimeLog arg2 (upsertTimeLog arg1 s).2.1).2.1.gen = s.gen + 1 ∧
    ((upsertTimeLog arg2 (upsertTimeLog arg1 s).2.1).2.1).loc.time_logs.countP (fun t => decide (t.date = arg1.date ∧ t.user_id = s.uid)) = 1 ∧
    ((processSyncQueue { (upsertTimeLog arg2 (upsertTimeLog arg1 s).2.1).2.1 with online := true }).2.1).loc.time_logs.countP (fun t => decide (t.date = arg1.date ∧ t.user_id = s.uid)) = 1 ∧
    ((processSyncQueue { (upsertTimeLog arg2 (upsertTimeLog arg1 s).2.1).2.1 with online := true }).2.1).rem.time_logs.countP (fun t => decide (t.date = arg1.date ∧ t.user_id = s.uid)) = 1 ∧
    ((processSyncQueue { (upsertTimeLog arg2 (upsertTimeLog arg1 s).2.1).2.1 with online := true }).2.1).loc.sync_queue = [] := by
  have hfind1 : s.loc.time_logs.find?
      (fun t => decide (t.date = arg1.date ∧ t.user_id = s.uid)) = none := by
    rw [List.find?_eq_none]
    intro t ht
    simpa using hnl t ht
  have h1 := upsertTimeLog_offline_new arg1 s hoff hfind1
  have hput1 : putRow TimeLog.id s.loc.time_logs (⟨Key.lgen s.gen, arg1.date, arg1.time_in, arg1.time_out, arg1.hours_rendered, s.uid, s.now⟩ : TimeLog) = s.loc.time_logs ++ [(⟨Key.lgen s.gen, arg1.date, arg1.time_in, arg1.time_out, arg1.hours_rendered, s.uid, s.now⟩ : TimeLog)] :=
    putRow_eq_append (fun z hz => hfresh z hz)
  have hs1 : (upsertTimeLog arg1 s).2.1 =
      ({ s with
        loc := { s.loc with
          time_logs := (s.loc.time_logs ++ [(⟨Key.lgen s.gen, arg1.date, arg1.time_in, arg1.time_out, arg1.hours_rendered, s.uid, s.now⟩ : TimeLog)]),
          sync_queue := [(⟨s.loc.nextQueueId, Table.time_logs, Action.upsert, Key.lgen s.gen, some (Payload.timeLogRow (⟨Key.lgen s.gen, arg1.date, arg1.time_in, arg1.time_out, arg1.hours_rendered, s.uid, s.now⟩ : TimeLog)), s.now⟩ : QueueItem)],
          nextQueueId := s.loc.nextQueueId + 1 },
        gen := s.gen + 1, now := s.now + 1 } : St) := by
    rw [h1]
    simp [hput1, hq]
  have hfind2 : ((upsertTimeLog arg1 s).2.1).loc.time_logs.find?
      (fun x => decide (x.date = arg2.date ∧ x.user_id = ((upsertTimeLog arg1 s).2.1).uid))
      = some (⟨Key.lgen s.gen, arg1.date, arg1.time_in, arg1.time_out, arg1.hours_rendered, s.uid, s.now⟩ : TimeLog) := by
    rw [hs1]
    simp only [hdate]
    rw [List.find?_append, hfind1]
    simp
  have h2 := upsertTimeLog_offline_existing arg2 ((upsertTimeLog arg1 s).2.1) (⟨Key.lgen s.gen, arg1.date, arg1.time_in, arg1.time_out, arg1.hours_rendered, s.uid, s.now⟩ : TimeLog)
    (by rw [hs1]; exact hoff) hfind2
  have hput2 : putRow TimeLog.id (s.loc.time_logs ++ [(⟨Key.lgen s.gen, arg1.date, arg1.time_in, arg1.time_out, arg1.hours_rendered, s.uid, s.now⟩ : TimeLog)]) (⟨Key.lgen s.gen, arg2.date, arg2.time_in, arg2.time_out, arg2.hours_rendered, s.uid, s.now⟩ : TimeLog)
      = s.loc.time_logs ++ [(⟨Key.lgen s.gen, arg2.date, arg2.time_in, arg2.time_out, arg2.hours_rendered, s.uid, s.now⟩ : TimeLog)] :=
    putRow_append_last rfl (fun z hz => hfresh z hz)
  have hs2 : (upsertTimeLog arg2 (upsertTimeLog arg1 s).2.1).2.1 = ({ s with
      loc := { s.loc with
        time_logs := (s.loc.time_logs ++ [(⟨Key.lgen s.gen, arg2.date, arg2.time_in, arg2.time_out, arg2.hours_rendered, s.uid, s.now⟩ : TimeLog)]),
        sync_queue := [(⟨s.loc.nextQueueId, Table.time_logs, Action.upsert, Key.lgen s.gen, some (Payload.timeLogRow (⟨Key.lgen s.gen, arg1.date, arg1.time_in, arg1.time_out, arg1.hours_rendered, s.uid, s.now⟩ : TimeLog)), s.now⟩ : QueueItem), (⟨s.loc.nextQueueId + 1, Table.time_logs, Action.upsert, Key.lgen s.gen, some (Payload.timeLogRow (⟨Key.lgen s.gen, arg2.date, arg2.time_in, arg2.time_out, arg2.hours_rendered, s.uid, s.now⟩ : TimeLog)), s.now + 1⟩ : QueueItem)],
        nextQueueId := s.loc.nextQueueId + 2 },
      gen := s.gen + 1, now := s.now + 2 } : St) := by
    rw [h2, hs1]
    simp [hput2]
  have hfindr1 : (({ s with
      loc := { s.loc with
        time_logs := (s.loc.time_logs ++ [(⟨Key.lgen s.gen, arg2.date, arg2.time_in, arg2.time_out, arg2.hours_rendered, s.uid, s.now⟩ : TimeLog)]),
        sync_queue := [(⟨s.loc.nextQueueId, Table.time_logs, Action.upsert, Key.lgen s.gen, some (Payload.timeLogRow (⟨Key.lgen s.gen, arg1.date, arg1.time_in, arg1.time_out, arg1.hours_rendered, s.uid, s.now⟩ : TimeLog)), s.now⟩ : QueueItem), (⟨s.loc.nextQueueId + 1, Table.time_logs, Action.upsert, Key.lgen s.gen, some (Payload.timeLogRow (⟨Key.lgen s.gen, arg2.date, arg2.time_in, arg2.time_out, arg2.hours_rendered, s.uid, s.now⟩ : TimeLog)), s.now + 1⟩ : QueueItem)],
        nextQueueId := s.loc.nextQueueId + 2 },
      online := true, gen := s.gen + 1, now := s.now + 2 } : St)).rem.time_logs.find?
      (fun t => decide (t.date = ((⟨Key.lgen s.gen, arg1.date, arg1.time_in, arg1.time_out, arg1.hours_rendered, s.uid, s.now⟩ : TimeLog)).date ∧ t.user_id = ((⟨Key.lgen s.gen, arg1.date, arg1.time_in, arg1.time_out, arg1.hours_rendered, s.uid, s.now⟩ : TimeLog)).user_id)) = none := by
    rw [List.find?_eq_none]
    intro t ht
    simpa using hnr t ht
  have hd1 := syncTimeLog_upsert_new (⟨s.loc.nextQueueId, Table.time_logs, Action.upsert, Key.lgen s.gen, some (Payload.timeLogRow (⟨Key.lgen s.gen, arg1.date, arg1.time_in, arg1.time_out, arg1.hours_rendered, s.uid, s.now⟩ : TimeLog)), s.now⟩ : QueueItem) (⟨Key.lgen s.gen, arg1.date, arg1.time_in, arg1.time_out, arg1.hours_rendered, s.uid, s.now⟩ : TimeLog) ({ s with
      loc := { s.loc with
        time_logs := (s.loc.time_logs ++ [(⟨Key.lgen s.gen, arg2.date, arg2.time_in, arg2.time_out, arg2.hours_rendered, s.uid, s.now⟩ : TimeLog)]),
        sync_queue := [(⟨s.loc.nextQueueId, Table.time_logs, Action.upsert, Key.lgen s.gen, some (Payload.timeLogRow (⟨Key.lgen s.gen, arg1.date, arg1.time_in, arg1.time_out, arg1.hours_rendered, s.uid, s.now⟩ : TimeLog)), s.now⟩ : QueueItem), (⟨s.loc.nextQueueId + 1, Table.time_logs, Action.upsert, Key.lgen s.gen, some (Payload.timeLogRow (⟨Key.lgen s.gen, arg2.date, arg2.time_in, arg2.time_out, arg2.hours_rendered, s.uid, s.now⟩ : TimeLog)), s.now + 1⟩ : QueueItem)],
        nextQueueId := s.loc.nextQueueId + 2 },
      online := true, gen := s.gen + 1, now := s.now + 2 } : St) rfl rfl rfl hok hfindr1 rfl
  have hdisp1 : dispatch (⟨s.loc.nextQueueId, Table.time_logs, Action.upsert, Key.lgen s.gen, some (Payload.timeLogRow (⟨Key.lgen s.gen, arg1.date, arg1.time_in, arg1.time_out, arg1.hours_rendered, s.uid, s.now⟩ : TimeLog)), s.now⟩ : QueueItem) ({ s with
      loc := { s.loc with
        time_logs := (s.loc.time_logs ++ [(⟨Key.lgen s.gen, arg2.date, arg2.time_in, arg2.time_out, arg2.hours_rendered, s.uid, s.now⟩ : TimeLog)]),
        sync_queue := [(⟨s.loc.nextQueueId, Table.time_logs, Action.upsert, Key.lgen s.gen, some (Payload.timeLogRow (⟨Key.lgen s.gen, arg1.date, arg1.time_in, arg1.time_out, arg1.hours_rendered, s.uid, s.now⟩ : TimeLog)), s.now⟩ : QueueItem), (⟨s.loc.nextQueueId + 1, Table.time_logs, Action.upsert, Key.lgen s.gen, some (Payload.timeLogRow (⟨Key.lgen s.gen, arg2.date, arg2.time_in, arg2.time_out, arg2.hours_rendered, s.uid, s.now⟩ : TimeLog)), s.now + 1⟩ : QueueItem)],
        nextQueueId := s.loc.nextQueueId + 2 },
      online := true, gen := s.gen + 1, now := s.now + 2 } : St) = (true,
      ({ ({ s with
      loc := { s.loc with
        time_logs := (s.loc.time_logs ++ [(⟨Key.lgen s.gen, arg2.date, arg2.time_in, arg2.time_out, arg2.hours_rendered, s.uid, s.now⟩ : TimeLog)]),
        sync_queue := [(⟨s.loc.nextQueueId, Table.time_logs, Action.upsert, Key.lgen s.gen, some (Payload.timeLogRow (⟨Key.lgen s.gen, arg1.date, arg1.time_in, arg1.time_out, arg1.hours_rendered, s.uid, s.now⟩ : TimeLog)), s.now⟩ : QueueItem), (⟨s.loc.nextQueueId + 1, Table.time_logs, Action.upsert, Key.lgen s.gen, some (Payload.timeLogRow (⟨Key.lgen s.gen, arg2.date, arg2.time_in, arg2.time_out, arg2.hours_rendered, s.uid, s.now⟩ : TimeLog)), s.now + 1⟩ : QueueItem)],
        nextQueueId := s.loc.nextQueueId + 2 },
      online := true, gen := s.gen + 1, now := s.now + 2 } : St) with rem := { s.rem with time_logs := (s.rem.time_logs ++ [(⟨Key.lgen s.gen, arg1.date, arg1.time_in, arg1.time_out, arg1.hours_rendered, s.uid, s.now⟩ : TimeLog)]) } } : St)) := hd1
  have hdelq1 : delQ ({ ({ s with
      loc := { s.loc with
        time_logs := (s.loc.time_logs ++ [(⟨Key.lgen s.gen, arg2.date, arg2.time_in, arg2.time_out, arg2.hours_rendered, s.uid, s.now⟩ : TimeLog)]),
        sync_queue := [(⟨s.loc.nextQueueId, Table.time_logs, Action.upsert, Key.lgen s.gen, some (Payload.timeLogRow (⟨Key.lgen s.gen, arg1.date, arg1.time_in, arg1.time_out, arg1.hours_rendered, s.uid, s.now⟩ : TimeLog)), s.now⟩ : QueueItem), (⟨s.loc.nextQueueId + 1, Table.time_logs, Action.upsert, Key.lgen s.gen, some (Payload.timeLogRow (⟨Key.lgen s.gen, arg2.date, arg2.time_in, arg2.time_out, arg2.hours_rendered, s.uid, s.now⟩ : TimeLog)), s.now + 1⟩ : QueueItem)],
        nextQueueId := s.loc.nextQueueId + 2 },
      online := true, gen := s.gen + 1, now := s.now + 2 } : St) with rem := { s.rem with
      time_logs := (s.rem.time_logs ++ [(⟨Key.lgen s.gen, arg1.date, arg1.time_in, arg1.time_out, arg1.hours_rendered, s.uid, s.now⟩ : TimeLog)]) } } : St) (((⟨s.loc.nextQueueId, Table.time_logs, Action.upsert, Key.lgen s.gen, some (Payload.timeLogRow (⟨Key.lgen s.gen, arg1.date, arg1.time_in, arg1.time_out, arg1.hours_rendered, s.uid, s.now⟩ : TimeLog)), s.now⟩ : QueueItem)).queueId) = ({ s with
      loc := { s.loc with
        time_logs := (s.loc.time_logs ++ [(⟨Key.lgen s.gen, arg2.date, arg2.time_in, arg2.time_out, arg2.hours_rendered, s.uid, s.now⟩ : TimeLog)]),
        sync_queue := [(⟨s.loc.nextQueueId + 1, Table.time_logs, Action.upsert, Key.lgen s.gen, some (Payload.timeLogRow (⟨Key.lgen s.gen, arg2.date, arg2.time_in, arg2.time_out, arg2.hours_rendered, s.uid, s.now⟩ : TimeLog)), s.now + 1⟩ : QueueItem)],
        nextQueueId := s.loc.nextQueueId + 2 },
      rem := { s.rem with time_logs := (s.rem.time_logs ++ [(⟨Key.lgen s.gen, arg1.date, arg1.time_in, arg1.time_out, arg1.hours_rendered, s.uid, s.now⟩ : TimeLog)]) },
      online := true, gen := s.gen + 1, now := s.now + 2 } : St) := by
    simp [delQ, delRow]
  have hfindnr : s.rem.time_logs.find?
      (fun t => decide (t.date = arg1.date ∧ t.user_id = s.uid)) = none := by
    rw [List.find?_eq_none]
    intro t ht
    simpa using hnr t ht
  have hfindr2 : (({ s with
      loc := { s.loc with
        time_logs := (s.loc.time_logs ++ [(⟨Key.lgen s.gen, arg2.date, arg2.time_in, arg2.time_out, arg2.hours_rendered, s.uid, s.now⟩ : TimeLog)]),
        sync_queue := [(⟨s.loc.nextQueueId + 1, Table.time_logs, Action.upsert, Key.lgen s.gen, some (Payload.timeLogRow (⟨Key.lgen s.gen, arg2.date, arg2.time_in, arg2.time_out, arg2.hours_rendered, s.uid, s.now⟩ : TimeLog)), s.now + 1⟩ : QueueItem)],
        nextQueueId := s.loc.nextQueueId + 2 },
      rem := { s.rem with time_logs := (s.rem.time_logs ++ [(⟨Key.lgen s.gen, arg1.date, arg1.time_in, arg1.time_out, arg1.hours_rendered, s.uid, s.now⟩ : TimeLog)]) },
      online := true, gen := s.gen + 1, now := s.now + 2 } : St)).rem.time_logs.find?
      (fun x => decide (x.date = arg2.date ∧ x.user_id = s.uid)) = some (⟨Key.lgen s.gen, arg1.date, arg1.time_in, arg1.time_out, arg1.hours_rendered, s.uid, s.now⟩ : TimeLog) := by
    show (s.rem.time_logs ++ [(⟨Key.lgen s.gen, arg1.date, arg1.time_in, arg1.time_out, arg1.hours_rendered, s.uid, s.now⟩ : TimeLog)]).find? _ = _
    simp only [hdate]
    rw [List.find?_append, hfindnr]
    simp
  have hd2 := syncTimeLog_upsert_conflict (⟨s.loc.nextQueueId + 1, Table.time_logs, Action.upsert, Key.lgen s.gen, some (Payload.timeLogRow (⟨Key.lgen s.gen, arg2.date, arg2.time_in, arg2.time_out, arg2.hours_rendered, s.uid, s.now⟩ : TimeLog)), s.now + 1⟩ : QueueItem) (⟨Key.lgen s.gen, arg2.date, arg2.time_in, arg2.time_out, arg2.hours_rendered, s.uid, s.now⟩ : TimeLog) (⟨Key.lgen s.gen, arg1.date, arg1.time_in, arg1.time_out, arg1.hours_rendered, s.uid, s.now⟩ : TimeLog) ({ s with
      loc := { s.loc with
        time_logs := (s.loc.time_logs ++ [(⟨Key.lgen s.gen, arg2.date, arg2.time_in, arg2.time_out, arg2.hours_rendered, s.uid, s.now⟩ : TimeLog)]),
        sync_queue := [(⟨s.loc.nextQueueId + 1, Table.time_logs, Action.upsert, Key.lgen s.gen, some (Payload.timeLogRow (⟨Key.lgen s.gen, arg2.date, arg2.time_in, arg2.time_out, arg2.hours_rendered, s.uid, s.now⟩ : TimeLog)), s.now + 1⟩ : QueueItem)],
        nextQueueId := s.loc.nextQueueId + 2 },
      rem := { s.rem with time_logs := (s.rem.time_logs ++ [(⟨Key.lgen s.gen, arg1.date, arg1.time_in, arg1.time_out, arg1.hours_rendered, s.uid, s.now⟩ : TimeLog)]) },
      online := true, gen := s.gen + 1, now := s.now + 2 } : St) rfl rfl rfl hok hfindr2 rfl
  have hmap : (s.rem.time_logs ++ [(⟨Key.lgen s.gen, arg1.date, arg1.time_in, arg1.time_out, arg1.hours_rendered, s.uid, s.now⟩ : TimeLog)]).map
      (fun x => if x.id = ((⟨Key.lgen s.gen, arg1.date, arg1.time_in, arg1.time_out, arg1.hours_rendered, s.uid, s.now⟩ : TimeLog)).id then { (⟨Key.lgen s.gen, arg2.date, arg2.time_in, arg2.time_out, arg2.hours_rendered, s.uid, s.now⟩ : TimeLog) with id := ((⟨Key.lgen s.gen, arg1.date, arg1.time_in, arg1.time_out, arg1.hours_rendered, s.uid, s.now⟩ : TimeLog)).id } else x)
      = s.rem.time_logs ++ [(⟨Key.lgen s.gen, arg2.date, arg2.time_in, arg2.time_out, arg2.hours_rendered, s.uid, s.now⟩ : TimeLog)] := by
    rw [List.map_append]
    congr 1
    · refine map_eq_self_of (fun x hx => ?_)
      rw [if_neg]
      intro h
      exact hremfresh x hx h
    · simp
  have hdisp2 : dispatch (⟨s.loc.nextQueueId + 1, Table.time_logs, Action.upsert, Key.lgen s.gen, some (Payload.timeLogRow (⟨Key.lgen s.gen, arg2.date, arg2.time_in, arg2.time_out, arg2.hours_rendered, s.uid, s.now⟩ : TimeLog)), s.now + 1⟩ : QueueItem) ({ s with
      loc := { s.loc with
        time_logs := (s.loc.time_logs ++ [(⟨Key.lgen s.gen, arg2.date, arg2.time_in, arg2.time_out, arg2.hours_rendered, s.uid, s.now⟩ : TimeLog)]),
        sync_queue := [(⟨s.loc.nextQueueId + 1, Table.time_logs, Action.upsert, Key.lgen s.gen, some (Payload.timeLogRow (⟨Key.lgen s.gen, arg2.date, arg2.time_in, arg2.time_out, arg2.hours_rendered, s.uid, s.now⟩ : TimeLog)), s.now + 1⟩ : QueueItem)],
        nextQueueId := s.loc.nextQueueId + 2 },
      rem := { s.rem with time_logs := (s.rem.time_logs ++ [(⟨Key.lgen s.gen, arg1.date, arg1.time_in, arg1.time_out, arg1.hours_rendered, s.uid, s.now⟩ : TimeLog)]) },
      online := true, gen := s.gen + 1, now := s.now + 2 } : St) = (true, ({ s with
      loc := { s.loc with
        time_logs := (s.loc.time_logs ++ [(⟨Key.lgen s.gen, arg2.date, arg2.time_in, arg2.time_out, arg2.hours_rendered, s.uid, s.now⟩ : TimeLog)]),
        sync_queue := [(⟨s.loc.nextQueueId + 1, Table.time_logs, Action.upsert, Key.lgen s.gen, some (Payload.timeLogRow (⟨Key.lgen s.gen, arg2.date, arg2.time_in, arg2.time_out, arg2.hours_rendered, s.uid, s.now⟩ : TimeLog)), s.now + 1⟩ : QueueItem)],
        nextQueueId := s.loc.nextQueueId + 2 },
      rem := { s.rem with time_logs := ((s.rem.time_logs ++ [(⟨Key.lgen s.gen, arg1.date, arg1.time_in, arg1.time_out, arg1.hours_rendered, s.uid, s.now⟩ : TimeLog)]).map (fun x => if x.id = ((⟨Key.lgen s.gen, arg1.date, arg1.time_in, arg1.time_out, arg1.hours_rendered, s.uid, s.now⟩ : TimeLog)).id then { (⟨Key.lgen s.gen, arg2.date, arg2.time_in, arg2.time_out, arg2.hours_rendered, s.uid, s.now⟩ : TimeLog) with id := ((⟨Key.lgen s.gen, arg1.date, arg1.time_in, arg1.time_out, arg1.hours_rendered, s.uid, s.now⟩ : TimeLog)).id } else x)) },
      online := true, gen := s.gen + 1, now := s.now + 2 } : St)) := hd2
  have hs2p : ({ (upsertTimeLog arg2 (upsertTimeLog arg1 s).2.1).2.1 with online := true } : St) =
      ({ s with
      loc := { s.loc with
        time_logs := (s.loc.time_logs ++ [(⟨Key.lgen s.gen, arg2.date, arg2.time_in, arg2.time_out, arg2.hours_rendered, s.uid, s.now⟩ : TimeLog)]),
        sync_queue := [(⟨s.loc.nextQueueId, Table.time_logs, Action.upsert, Key.lgen s.gen, some (Payload.timeLogRow (⟨Key.lgen s.gen, arg1.date, arg1.time_in, arg1.time_out, arg1.hours_rendered, s.uid, s.now⟩ : TimeLog)), s.now⟩ : QueueItem), (⟨s.loc.nextQueueId + 1, Table.time_logs, Action.upsert, Key.lgen s.gen, some (Payload.timeLogRow (⟨Key.lgen s.gen, arg2.date, arg2.time_in, arg2.time_out, arg2.hours_rendered, s.uid, s.now⟩ : TimeLog)), s.now + 1⟩ : QueueItem)],
        nextQueueId := s.loc.nextQueueId + 2 },
      online := true, gen := s.gen + 1, now := s.now + 2 } : St) := by
    rw [hs2]
  have hproc : processSyncQueue ({ (upsertTimeLog arg2 (upsertTimeLog arg1 s).2.1).2.1 with online := true } : St) =
      (2, ({ s with
      loc := { s.loc with
        time_logs := (s.loc.time_logs ++ [(⟨Key.lgen s.gen, arg2.date, arg2.time_in, arg2.time_out, arg2.hours_rendered, s.uid, s.now⟩ : TimeLog)]),
        sync_queue := ([] : List QueueItem),
        nextQueueId := s.loc.nextQueueId + 2 },
      rem := { s.rem with time_logs := (s.rem.time_logs ++ [(⟨Key.lgen s.gen, arg2.date, arg2.time_in, arg2.time_out, arg2.hours_rendered, s.uid, s.now⟩ : TimeLog)]) },
      online := true, gen := s.gen + 1, now := s.now + 2 } : St),
       [Ev.replayAttempt s.loc.nextQueueId true,
        Ev.replayAttempt (s.loc.nextQueueId + 1) true]) := by
    rw [hs2p]
    unfold processSyncQueue
    simp only [Bool.not_true, Bool.false_eq_true, if_false, List.isEmpty_cons]
    have hsort : List.insertionSort (fun a b => a.queueId ≤ b.queueId) [(⟨s.loc.nextQueueId, Table.time_logs, Action.upsert, Key.lgen s.gen, some (Payload.timeLogRow (⟨Key.lgen s.gen, arg1.date, arg1.time_in, arg1.time_out, arg1.hours_rendered, s.uid, s.now⟩ : TimeLog)), s.now⟩ : QueueItem), (⟨s.loc.nextQueueId + 1, Table.time_logs, Action.upsert, Key.lgen s.gen, some (Payload.timeLogRow (⟨Key.lgen s.gen, arg2.date, arg2.time_in, arg2.time_out, arg2.hours_rendered, s.uid, s.now⟩ : TimeLog)), s.now + 1⟩ : QueueItem)]
        = [(⟨s.loc.nextQueueId, Table.time_logs, Action.upsert, Key.lgen s.gen, some (Payload.timeLogRow (⟨Key.lgen s.gen, arg1.date, arg1.time_in, arg1.time_out, arg1.hours_rendered, s.uid, s.now⟩ : TimeLog)), s.now⟩ : QueueItem), (⟨s.loc.nextQueueId + 1, Table.time_logs, Action.upsert, Key.lgen s.gen, some (Payload.timeLogRow (⟨Key.lgen s.gen, arg2.date, arg2.time_in, arg2.time_out, arg2.hours_rendered, s.uid, s.now⟩ : TimeLog)), s.now + 1⟩ : QueueItem)] := by
      simp [List.insertionSort, List.orderedInsert, Nat.le_succ]
    rw [hsort]
    rw [drainLoop_cons_success [(⟨s.loc.nextQueueId + 1, Table.time_logs, Action.upsert, Key.lgen s.gen, some (Payload.timeLogRow (⟨Key.lgen s.gen, arg2.date, arg2.time_in, arg2.time_out, arg2.hours_rendered, s.uid, s.now⟩ : TimeLog)), s.now + 1⟩ : QueueItem)] 0 hdisp1]
    rw [hdelq1]
    rw [drainLoop_cons_success [] 1 hdisp2]
    simp [drainLoop, delQ, delRow, hmap]
  have hz : s.loc.time_logs.countP (fun t => decide (t.date = arg1.date ∧ t.user_id = s.uid)) = 0 :=
    List.countP_eq_zero.mpr (fun a ha => by simpa using hnl a ha)
  have hzr : s.rem.time_logs.countP (fun t => decide (t.date = arg1.date ∧ t.user_id = s.uid)) = 0 :=
    List.countP_eq_zero.mpr (fun a ha => by simpa using hnr a ha)
  refine ⟨?_, ?_, ?_, ?_, ?_, ?_, ?_⟩
  · rw [h1]
  · rw [h2]
  · rw [hs2]
  · rw [hs2]
    show (s.loc.time_logs ++ [(⟨Key.lgen s.gen, arg2.date, arg2.time_in, arg2.time_out, arg2.hours_rendered, s.uid, s.now⟩ : TimeLog)]).countP _ = 1
    rw [List.countP_append, hz]
    simp [hdate]
  · rw [hproc]
    show (s.loc.time_logs ++ [(⟨Key.lgen s.gen, arg2.date, arg2.time_in, arg2.time_out, arg2.hours_rendered, s.uid, s.now⟩ : TimeLog)]).countP _ = 1
    rw [List.countP_append, hz]
    simp [hdate]
  · rw [hproc]
    show (s.rem.time_logs ++ [(⟨Key.lgen s.gen, arg2.date, arg2.time_in, arg2.time_out, arg2.hours_rendered, s.uid, s.now⟩ : TimeLog)]).countP _ = 1
    rw [List.countP_append, hzr]
    simp [hdate]
  · rw [hproc]

/-- Witness for C3: two same-day offline upserts from the fresh state. -/
theorem upsertTimeLog_same_day_once_witness :
    (upsertTimeLog (⟨"2024-05-01", some "08:00", none, none⟩ : UpsertArg) (freshSt false)).1.id = Key.lgen 0 ∧
    (upsertTimeLog (⟨"2024-05-01", some "08:00", some "17:00", some 8⟩ : UpsertArg) (upsertTimeLog (⟨"2024-05-01", some "08:00", none, none⟩ : UpsertArg) (freshSt false)).2.1).1.id = Key.lgen 0 ∧
    (upsertTimeLog (⟨"2024-05-01", some "08:00", some "17:00", some 8⟩ : UpsertArg) (upsertTimeLog (⟨"2024-05-01", some "08:00", none, none⟩ : UpsertArg) (freshSt false)).2.1).2.1.gen = 0 + 1 ∧
    ((upsertTimeLog (⟨"2024-05-01", some "08:00", some "17:00", some 8⟩ : UpsertArg) (upsertTimeLog (⟨"2024-05-01", some "08:00", none, none⟩ : UpsertArg) (freshSt false)).2.1).2.1).loc.time_logs.countP (fun t => decide (t.date = "2024-05-01" ∧ t.user_id = "u1")) = 1 ∧
    ((processSyncQueue { (upsertTimeLog (⟨"2024-05-01", some "08:00", some "17:00", some 8⟩ : UpsertArg) (upsertTimeLog (⟨"2024-05-01", some "08:00", none, none⟩ : UpsertArg) (freshSt false)).2.1).2.1 with online := true }).2.1).loc.time_logs.countP (fun t => decide (t.date = "2024-05-01" ∧ t.user_id = "u1")) = 1 ∧
    ((processSyncQueue { (upsertTimeLog (⟨"2024-05-01", some "08:00", some "17:00", some 8⟩ : UpsertArg) (upsertTimeLog (⟨"2024-05-01", some "08:00", none, none⟩ : UpsertArg) (freshSt false)).2.1).2.1 with online := true }).2.1).rem.time_logs.countP (fun t => decide (t.date = "2024-05-01" ∧ t.user_id = "u1")) = 1 ∧
    ((processSyncQueue { (upsertTimeLog (⟨"2024-05-01", some "08:00", some "17:00", some 8⟩ : UpsertArg) (upsertTimeLog (⟨"2024-05-01", some "08:00", none, none⟩ : UpsertArg) (freshSt false)).2.1).2.1 with online := true }).2.1).loc.sync_queue = [] :=
  upsertTimeLog_same_day_once (⟨"2024-05-01", some "08:00", none, none⟩ : UpsertArg) (⟨"2024-05-01", some "08:00", some "17:00", some 8⟩ : UpsertArg) (freshSt false) rfl rfl rfl
    (by decide) (by decide) (by decide) (by decide) rfl

/-- Witness for C2 at the concrete reconciliation state `c2st`. -/
theorem syncTimeLog_id_reconciliation_witness :
    (syncTimeLog c2item c2st).1 = true ∧
    (∀ t ∈ (syncTimeLog c2item c2st).2.loc.time_logs, t.id ≠ c2item.rowId) ∧
    c2data ∈ (syncTimeLog c2item c2st).2.loc.time_logs ∧
    (∀ t ∈ c2st.loc.tasks, t.log_id = c2item.rowId →
       { t with log_id := c2data.id } ∈ (syncTimeLog c2item c2st).2.loc.tasks) ∧
    (∀ t ∈ (syncTimeLog c2item c2st).2.loc.tasks, t.log_id ≠ c2item.rowId) ∧
    (∀ p ∈ c2st.loc.photos, p.log_id = c2item.rowId →
       { p with log_id := c2data.id } ∈ (syncTimeLog c2item c2st).2.loc.photos) ∧
    (∀ p ∈ (syncTimeLog c2item c2st).2.loc.photos, p.log_id ≠ c2item.rowId) :=
  syncTimeLog_id_reconciliation c2item c2row c2data c2st (by decide) (by decide)
    (by decide) (by decide)


/-- C9: refuted as stated — when two `getSettings` calls for a principal with
no existing settings row interleave at their await points (second caller runs
its remote fetch-or-create while the first is suspended before its local
fallback), both calls complete and the local mirror ends up with two default
settings rows (required_ojt_hours 600, accent_color "green", theme "light")
for that owner. -/
theorem getSettings_concurrent_two_default_rows :
    (runConc [true, false, true, false, false, false, true]
        (GsPC.start, GsPC.start, freshSt true)).1 =
      GsPC.done (⟨Key.srv 0, "u1", 600, "green", "light"⟩ : Settings) ∧
    (runConc [true, false, true, false, false, false, true]
        (GsPC.start, GsPC.start, freshSt true)).2.1 =
      GsPC.done (⟨Key.lgen 0, "u1", 600, "green", "light"⟩ : Settings) ∧
    ((runConc [true, false, true, false, false, false, true]
        (GsPC.start, GsPC.start, freshSt true)).2.2.loc.settings.countP
      (fun x => decide (x.user_id = "u1" ∧ x.required_ojt_hours = 600 ∧
        x.accent_color = "green" ∧ x.theme = "light"))) = 2 := by
  decide

/-- C9 (amended): two sequential `getSettings` calls for a principal with no
existing settings row locally or remotely, with every gateway call
succeeding and the speculative ids fresh, leave exactly one settings row for
that owner in the local mirror and at most one in the remote store. -/
theorem getSettings_sequential_single_row (s : St)
    (hok : s.rem.okList = [])
    (hloc : ∀ x ∈ s.loc.settings, x.user_id ≠ s.uid)
    (hrem : ∀ x ∈ s.rem.settings, x.user_id ≠ s.uid)
    (hfl : ∀ x ∈ s.loc.settings, x.id ≠ Key.lgen s.gen)
    (hfs : ∀ x ∈ s.loc.settings, x.id ≠ Key.srv s.rem.nextId) :
    ((getSettings (getSettings s).2.1).2.1).loc.settings.countP
        (fun x => decide (x.user_id = s.uid)) = 1 ∧
    ((getSettings (getSettings s).2.1).2.1).rem.settings.countP
        (fun x => decide (x.user_id = s.uid)) ≤ 1 := by
  have hfloc : s.loc.settings.find? (fun x => decide (x.user_id = s.uid)) = none := by
    rw [List.find?_eq_none]
    intro x hx
    simpa using hloc x hx
  have hfrem : s.rem.settings.find? (fun x => decide (x.user_id = s.uid)) = none := by
    rw [List.find?_eq_none]
    intro x hx
    simpa using hrem x hx
  have hcl : s.loc.settings.countP (fun x => decide (x.user_id = s.uid)) = 0 := by
    rw [List.countP_eq_zero]
    intro x hx
    simpa using hloc x hx
  have hcr : s.rem.settings.countP (fun x => decide (x.user_id = s.uid)) = 0 := by
    rw [List.countP_eq_zero]
    intro x hx
    simpa using hrem x hx
  by_cases hon : s.online = true
  · rw [getSettings_online_insert s hon hok hrem]
    dsimp only
    have hput1 : putRow Settings.id s.loc.settings
        (⟨Key.srv s.rem.nextId, s.uid, 600, "green", "light"⟩ : Settings)
        = s.loc.settings ++ [(⟨Key.srv s.rem.nextId, s.uid, 600, "green", "light"⟩ : Settings)] :=
      putRow_eq_append (fun z hz => by simpa using hfs z hz)
    have hfd : (s.rem.settings ++
        [(⟨Key.srv s.rem.nextId, s.uid, 600, "green", "light"⟩ : Settings)]).find?
          (fun x => decide (x.user_id = s.uid)) =
        some (⟨Key.srv s.rem.nextId, s.uid, 600, "green", "light"⟩ : Settings) := by
      rw [find_none_append hfrem]
      simp [List.find?]
    have e2 := getSettings_online_found
        ({ s with
           loc := { s.loc with settings := (putRow Settings.id s.loc.settings
                (⟨Key.srv s.rem.nextId, s.uid, 600, "green", "light"⟩ : Settings)) },
           rem := { s.rem with
                    settings := (s.rem.settings ++
                      [(⟨Key.srv s.rem.nextId, s.uid, 600, "green", "light"⟩ : Settings)]),
                    nextId := s.rem.nextId + 1 } } : St)
        (⟨Key.srv s.rem.nextId, s.uid, 600, "green", "light"⟩ : Settings)
        hon hok hfd
    rw [e2]
    dsimp only
    constructor
    · rw [hput1]
      rw [putRow_append_last rfl (fun z hz => by simpa using hfs z hz)]
      rw [List.countP_append, hcl]
      simp
    · rw [List.countP_append, hcr]
      simp
  · simp only [Bool.not_eq_true] at hon
    rw [getSettings_offline_new s hon hfloc]
    dsimp only
    have hput1 : putRow Settings.id s.loc.settings
        (⟨Key.lgen s.gen, s.uid, 600, "green", "light"⟩ : Settings)
        = s.loc.settings ++ [(⟨Key.lgen s.gen, s.uid, 600, "green", "light"⟩ : Settings)] :=
      putRow_eq_append (fun z hz => by simpa using hfl z hz)
    have hfd : (putRow Settings.id s.loc.settings
        (⟨Key.lgen s.gen, s.uid, 600, "green", "light"⟩ : Settings)).find?
          (fun x => decide (x.user_id = s.uid)) =
        some (⟨Key.lgen s.gen, s.uid, 600, "green", "light"⟩ : Settings) := by
      rw [hput1]
      rw [find_none_append hfloc]
      simp [List.find?]
    have e2 := getSettings_offline_cached
        ({ s with
           loc := { s.loc with settings := (putRow Settings.id s.loc.settings
                (⟨Key.lgen s.gen, s.uid, 600, "green", "light"⟩ : Settings)) },
           gen := s.gen + 1 } : St)
        (⟨Key.lgen s.gen, s.uid, 600, "green", "light"⟩ : Settings)
        hon hfd
    rw [e2]
    dsimp only
    constructor
    · rw [hput1]
      rw [List.countP_append, hcl]
      simp
    · rw [hcr]
      simp

/-- Witness for the amended C9 at the fresh online state. -/
theorem getSettings_sequential_single_row_witness :
    ((getSettings (getSettings (freshSt true)).2.1).2.1).loc.settings.countP
        (fun x => decide (x.user_id = (freshSt true).uid)) = 1 ∧
    ((getSettings (getSettings (freshSt true)).2.1).2.1).rem.settings.countP
        (fun x => decide (x.user_id = (freshSt true).uid)) ≤ 1 :=
  getSettings_sequential_single_row (freshSt true) (by decide) (by decide) (by decide)
    (by decide) (by decide)


/-- C1: refuted as stated — an offline `updateSettings` followed by a drain
in which the remote store accepts the (single) replayed operation leaves the
queue empty yet the remote settings collection empty while the local mirror
holds the owner's updated row: the offline fetch-or-create synthesizes the
local default without queueing an insert, and the queued settings update is
replayed as a remote update-by-owner that silently matches no remote row. -/
theorem updateSettings_offline_drain_diverges :
    (processSyncQueue { (updateSettings 500 (freshSt false)).2.1 with online := true }).1 = 1 ∧
    (processSyncQueue { (updateSettings 500 (freshSt false)).2.1
        with online := true }).2.1.loc.sync_queue = [] ∧
    (processSyncQueue { (updateSettings 500 (freshSt false)).2.1
        with online := true }).2.1.loc.settings.countP
      (fun x => decide (x.user_id = "u1")) = 1 ∧
    (processSyncQueue { (updateSettings 500 (freshSt false)).2.1
        with online := true }).2.1.rem.settings = [] := by
  decide

/-- C1 (amended): for an offline creator sequence — `upsertTimeLog` then
`createTask` for the new log, from the empty state — one drain after
connectivity returns, with the remote store accepting every replayed
operation, replays both entries, empties the queue, and leaves every remote
collection equal to its local-mirror counterpart (the task row having been
reconciled to the server-assigned id on both sides). -/
theorem offline_log_task_drain_converges (arg : UpsertArg) (desc : String) :
    (processSyncQueue { (createTask (Key.lgen 0) desc
        (upsertTimeLog arg (freshSt false)).2.1).2.1 with online := true }).1 = 2 ∧
    (processSyncQueue { (createTask (Key.lgen 0) desc
        (upsertTimeLog arg (freshSt false)).2.1).2.1 with online := true }).2.1.loc.sync_queue = [] ∧
    (processSyncQueue { (createTask (Key.lgen 0) desc
        (upsertTimeLog arg (freshSt false)).2.1).2.1 with online := true }).2.1.rem.time_logs =
      (processSyncQueue { (createTask (Key.lgen 0) desc
        (upsertTimeLog arg (freshSt false)).2.1).2.1 with online := true }).2.1.loc.time_logs ∧
    (processSyncQueue { (createTask (Key.lgen 0) desc
        (upsertTimeLog arg (freshSt false)).2.1).2.1 with online := true }).2.1.rem.tasks =
      (processSyncQueue { (createTask (Key.lgen 0) desc
        (upsertTimeLog arg (freshSt false)).2.1).2.1 with online := true }).2.1.loc.tasks ∧
    (processSyncQueue { (createTask (Key.lgen 0) desc
        (upsertTimeLog arg (freshSt false)).2.1).2.1 with online := true }).2.1.rem.photos =
      (processSyncQueue { (createTask (Key.lgen 0) desc
        (upsertTimeLog arg (freshSt false)).2.1).2.1 with online := true }).2.1.loc.photos ∧
    (processSyncQueue { (createTask (Key.lgen 0) desc
        (upsertTimeLog arg (freshSt false)).2.1).2.1 with online := true }).2.1.rem.settings =
      (processSyncQueue { (createTask (Key.lgen 0) desc
        (upsertTimeLog arg (freshSt false)).2.1).2.1 with online := true }).2.1.loc.settings := by
  refine ⟨rfl, rfl, rfl, rfl, rfl, rfl⟩

end SyncSpec
